import Mathlib

/-!
# HumanAwareness pedestrian tracker: camera model and target selector

A shallow embedding of `cameraModel.cpp` and of the `Tracker` class of
`auto_tracker/closest_follow.cpp`.

Numbers: a C++ `double` or `float` is embedded as an exact rational, so every
statement below is a statement in exact arithmetic.  A floating-point division
returns `none` when the divisor is zero (IEEE arithmetic answers with an
infinity or a NaN there, and every ordered comparison with such a value that the
code makes is false).
-/

namespace HumanAwareness

/-! ## Points, rectangles, matrices -/

/-- An OpenCV `Point_` with two coordinates of type `α`. -/
structure Point2 (α : Type) where
  x : α
  y : α
deriving DecidableEq

/-- An OpenCV `Point3_` with three coordinates of type `α`. -/
structure Point3 (α : Type) where
  x : α
  y : α
  z : α
deriving DecidableEq

/-- The `cv::Point2d` whose coordinates are finite. -/
abbrev Point2d := Point2 ℚ

/-- The `cv::Point3d` whose coordinates are finite. -/
abbrev Point3d := Point3 ℚ

/-- The `cv::Rect_<int>` of a detection. -/
structure Rect where
  x : Int
  y : Int
  width : Int
  height : Int
deriving DecidableEq

/-- A 3x3 `cv::Mat`. -/
abbrev Mat33 := Matrix (Fin 3) (Fin 3) ℚ

/-- A 4x4 `cv::Mat` (a homogeneous rigid transform). -/
abbrev Mat44 := Matrix (Fin 4) (Fin 4) ℚ

/-- The quotient `a / b` of two floating-point numbers: no finite value when `b` is zero. -/
def fdiv (a b : ℚ) : Option ℚ :=
  if b = 0 then none else some (a / b)

/-- The function `cv::invert` with its default LU method on a square matrix, in exact
arithmetic: the inverse of a non-singular matrix; for a singular matrix the
destination is set to zeros (and no exception is raised). -/
def invert {n : ℕ} (M : Matrix (Fin n) (Fin n) ℚ) : Matrix (Fin n) (Fin n) ℚ :=
  if M.det = 0 then 0 else M.det⁻¹ • M.adjugate

/-! ## cameraModel (cameraModel.cpp) -/

/-- The fields of `cameraModel` that the homography projection reads. -/
structure cameraModel where
  K_ : Mat33
  invertedK : Mat33

/-- The constructor, lines 21-26: `K_` is read from the configuration and
`invertedK` is `invert(K_)`. -/
def cameraModel.new (K : Mat33) : cameraModel :=
  { K_ := K, invertedK := invert K }

/-- Lines 70-80: columns 0, 1 and 3 of the transform are copied into a 4x3
matrix, of which rows 0-2 are kept. -/
def homography (worldLinkToCamera : Mat44) : Mat33 :=
  Matrix.of fun i j => worldLinkToCamera i.castSucc (![0, 1, 3] j)

/-- Lines 86-91 for one column: `invertedHomography * (invertedK * (u, v, 1))`. -/
def homogeneousP (cm : cameraModel) (worldLinkToCamera : Mat44) (p : Point2d) : Fin 3 → ℚ :=
  (invert (homography worldLinkToCamera)).mulVec (cm.invertedK.mulVec ![p.x, p.y, 1])

/-- The method `cameraModel::calculatePointsOnWorldFrame`, lines 48-116.  The rows of
`imagePoints` are the image points; one world point is pushed per column of
`homogeneousP`, in order. -/
def cameraModel.calculatePointsOnWorldFrame (cm : cameraModel) (imagePoints : List Point2d)
    (worldLinkToCamera : Mat44) : List (Point3 (Option ℚ)) :=
  imagePoints.map fun p =>
    let h := homogeneousP cm worldLinkToCamera p
    { x := fdiv (h 0) (h 2), y := fdiv (h 1) (h 2), z := some 0 }

/-! ## Tracks and the registry (personMotionModel.hpp) -/

/-- The members of `PersonModel` that are declared in the header or read and
written by `closest_follow.cpp` (`toBeDeleted`, `lockedOnce`). -/
structure PersonModel where
  id : Int
  noDetection : Int
  position : Point2d
  positionHistory : List Point2d
  rectHistory : List Rect
  rect : Rect
  toBeDeleted : Bool
  lockedOnce : Bool
deriving DecidableEq

/-- The registry `PersonList`: the vector of tracks, held by value, with the four
values handed to its constructor at line 534. -/
structure PersonList where
  nPersons : Int
  personList : List PersonModel
  median_window : ℕ
  numberOfFramesBeforeDestruction : Int
  numberOfFramesBeforeDestructionLocked : Int
  associatingDistance : ℚ
deriving DecidableEq

/-! ## Messages -/

/-- The part of `std_msgs::Header` that the callback copies: the time stamp. -/
structure Header where
  stamp : ℕ
deriving DecidableEq

/-- The message `pedestrian_detector::DetectionList`. -/
structure DetectionList where
  header : Header
  bbVector : List Rect

/-- The click message `visualization_msgs::InteractiveMarkerFeedback`. -/
structure InteractiveMarkerFeedback where
  marker_name : List Char

/-- A goal sent through `ac.sendGoal`: either of type `HOME`, or a fixation point
with its error tolerance. -/
inductive GazeGoal where
  | HOME
  | FIXATION (fixation_point : Point3d) (fixation_point_error_tolerance : ℚ)
deriving DecidableEq

/-- A marker handed to `marker_server->insert`. -/
structure InteractiveMarker where
  name : List Char
  description : List Char
  x : ℚ
  y : ℚ
  color : ℚ × ℚ × ℚ
deriving DecidableEq

/-- What one callback sends out, each list in the order of the calls:
`ac.sendGoal`, `position_publisher.publish`, `marker_server->insert`. -/
structure Effects where
  goals : List GazeGoal
  positions : List Point3d
  markers : List InteractiveMarker
deriving DecidableEq

/-- Nothing is sent. -/
def Effects.none : Effects :=
  { goals := [], positions := [], markers := [] }

/-- The calls of `e₁` followed by the calls of `e₂`. -/
def Effects.append (e₁ e₂ : Effects) : Effects :=
  { goals := e₁.goals ++ e₂.goals
    positions := e₁.positions ++ e₂.positions
    markers := e₁.markers ++ e₂.markers }

/-! ## Marker names: `std::stringstream` insertion and extraction -/

/-- The characters of `ss << n` for a non-negative `int`: its decimal digits. -/
def showNat (n : ℕ) : List Char :=
  if n = 0 then ['0'] else (Nat.digits 10 n).reverse.map Nat.digitChar

/-- The characters of `ss << n` for an `int`. -/
def showInt : Int → List Char
  | Int.ofNat n => showNat n
  | Int.negSucc n => '-' :: showNat (n + 1)

/-- Lines 336, 395 and 491: `name << "person " << id`. -/
def markerName (id : Int) : List Char :=
  ['p', 'e', 'r', 's', 'o', 'n', ' '] ++ showInt id

/-- Lines 337 and 492: `description << "Detection " << id`. -/
def markerDescription (id : Int) : List Char :=
  ['D', 'e', 't', 'e', 'c', 't', 'i', 'o', 'n', ' '] ++ showInt id

/-- Line 396: `description << "Objective: Detection " << id`. -/
def targetDescription (id : Int) : List Char :=
  ['O', 'b', 'j', 'e', 'c', 't', 'i', 'v', 'e', ':', ' '] ++ markerDescription id

/-- The white space of the classic locale, which formatted extraction skips. -/
def isSpace (c : Char) : Bool :=
  c = ' ' || c = '\t' || c = '\n' || c = '\r' || c.toNat = 11 || c.toNat = 12

/-- Extraction of a `std::string` (`ss >> trash`): leading white space is
skipped and characters are taken up to the next white space.  Returns the word
and the rest of the stream. -/
def extractWord (s : List Char) : List Char × List Char :=
  ((s.dropWhile isSpace).takeWhile fun c => !isSpace c,
   (s.dropWhile isSpace).dropWhile fun c => !isSpace c)

/-- The value of a decimal digit character. -/
def digitVal (c : Char) : ℕ := c.toNat - 48

/-- The number written by a string of decimal digits. -/
def parseNat (ds : List Char) : ℕ :=
  ds.foldl (fun acc c => 10 * acc + digitVal c) 0

/-- A parsed value that does not fit a 32-bit `int` is replaced by the nearest
bound. -/
def clampInt (v : Int) : Int :=
  if 2147483647 < v then 2147483647 else if v < -2147483648 then -2147483648 else v

/-- The digits read after the optional sign: no digit at all stores 0. -/
def extractDigits (negative : Bool) (s : List Char) : Int :=
  if s.takeWhile Char.isDigit = [] then 0
  else clampInt (if negative then -(parseNat (s.takeWhile Char.isDigit) : Int)
                 else (parseNat (s.takeWhile Char.isDigit) : Int))

/-- Extraction of an `int` (`ss >> targetId`) from a stream in good state: white
space is skipped, then an optional sign and the longest run of digits are read.
At the end of the stream nothing is stored and `old` is kept. -/
def extractInt (old : Int) (s : List Char) : Int :=
  match s.dropWhile isSpace with
  | [] => old
  | c :: r =>
    if c = '-' then extractDigits true r
    else if c = '+' then extractDigits false r
    else extractDigits false (c :: r)

/-! ## The Tracker (closest_follow.cpp) -/

/-- The state of a `Tracker` that the two callbacks read and write, with the
global frame counter of line 53.  `median_window` is an `int` in the source; a
negative value makes the range given to `std::sort` invalid, and the window is
a natural number here. -/
structure Tracker where
  cameramodel : cameraModel
  personNotChosenFlag : Bool
  personList : PersonList
  lastFixationPoint : Point3d
  z_history : List ℚ
  last_image_header : Header
  targetId : Int
  gaze_threshold : ℚ
  median_window : ℕ
  fixation_tolerance : ℚ
  frame : Int

/-- The collaborators of `trackingCallback` whose code is not in these sources:
the tf listener, the helpers of `detectionProcess.hpp` and
`filtersAndUtilities.hpp`, the detection filter, and the methods of `PersonList`
and `PersonModel`. -/
structure Env where
  /-- Lines 173-174: the transform for a time stamp, `none` when the lookup throws. -/
  lookupTransform : Header → Option Mat44
  /-- The helper `getFeet` of line 216. -/
  getFeet : Rect → Point2d
  /-- The in-place filter of line 232, returning the detections that are kept. -/
  filterDetectionsByPersonSize :
    List (Point3 (Option ℚ)) → List Rect → Mat44 → List (Point3 (Option ℚ)) × List Rect
  /-- The method `PersonList::associateData` of line 235. -/
  associateData : PersonList → List (Point3 (Option ℚ)) → List Rect → PersonList
  /-- The method `PersonList::getValidTrackerPosition` of line 271, which returns a
  vector by value. -/
  getValidTrackerPosition : PersonList → List PersonModel
  /-- The method `PersonModel::medianFilter`. -/
  medianFilter : PersonModel → Point3d
  /-- The helper `getCenter` of line 421. -/
  getCenter : Rect → Point2d
  /-- The helper `getZ` of line 424. -/
  getZ : Point2d → Point2d → Mat44 → cameraModel → ℚ

/-- The method `Tracker::processFeedback`, lines 122-161.  When the extraction of
the first word fails the stream is in a failed state and `targetId` is not
written. -/
def processFeedback (s : Tracker) (feedback : InteractiveMarkerFeedback) : Tracker × Effects :=
  if s.personNotChosenFlag then
    let ss := extractWord feedback.marker_name
    let targetId := if ss.1 = [] then s.targetId else extractInt s.targetId ss.2
    ({ s with targetId := targetId, personNotChosenFlag := false }, Effects.none)
  else
    ({ s with personNotChosenFlag := true, targetId := -1 },
     { Effects.none with goals := [GazeGoal.HOME] })

/-- Lines 238-267: the loop that erases the tracks marked `toBeDeleted`.  Returns
the remaining vector, `personNotChosenFlag`, `targetId` and the goals sent. -/
def deleteTrackers :
    List PersonModel → Bool → Int → List PersonModel × Bool × Int × List GazeGoal
  | [], personNotChosenFlag, targetId => ([], personNotChosenFlag, targetId, [])
  | it :: rest, personNotChosenFlag, targetId =>
    if it.toBeDeleted then
      if it.id = targetId then
        let r := deleteTrackers rest true (-1)
        (r.1, r.2.1, r.2.2.1, GazeGoal.HOME :: r.2.2.2)
      else
        deleteTrackers rest personNotChosenFlag targetId
    else
      let r := deleteTrackers rest personNotChosenFlag targetId
      (it :: r.1, r.2.1, r.2.2.1, r.2.2.2)

/-- Lines 426-427: the iterations `i, i+1, ...` of the shift loop, `n` of them.
An index outside the array gives `none`. -/
def shiftLoop (median_window : ℕ) : ℕ → ℕ → List ℚ → Option (List ℚ)
  | 0, _, z_history => some z_history
  | n + 1, i, z_history =>
    match z_history.get? (median_window - 1 - (i + 1)) with
    | Option.none => Option.none
    | some v =>
      if median_window - 1 - i < z_history.length then
        shiftLoop median_window n (i + 1) (z_history.set (median_window - 1 - i) v)
      else Option.none

/-- Lines 426-432: shift the history, store `z` in front, copy the array, sort
the first `median_window` entries of the copy and read entry
`(median_window-1)/2` with `at`.  Returns the new `z_history` and `medianZ`;
`none` when an access leaves the array or the copy. -/
def zStep (median_window : ℕ) (z_history : List ℚ) (z : ℚ) : Option (List ℚ × ℚ) :=
  match shiftLoop median_window (median_window - 1) 0 z_history with
  | Option.none => Option.none
  | some shifted =>
    if shifted.length = 0 ∨ shifted.length < median_window then Option.none
    else
      let z_history := shifted.set 0 z
      let z_vect := (z_history.take median_window).insertionSort (· ≤ ·)
        ++ z_history.drop median_window
      match z_vect.get? ((median_window - 1) / 2) with
      | Option.none => Option.none
      | some medianZ => some (z_history, medianZ)

/-- The test `cv::norm(p - q) > t` of line 439, decided on the squares. -/
def normGt (p q : Point3d) (t : ℚ) : Bool :=
  decide (t < 0 ∨ t ^ 2 < (p.x - q.x) ^ 2 + (p.y - q.y) ^ 2 + (p.z - q.z) ^ 2)

/-- Lines 370-499: the body of the loop of the chosen-person branch for the
element `it` of the local vector `list`.  Returns the element as the body leaves
it, the tracker and what was sent. -/
def followStep (env : Env) (mapToCameraTransform : Mat44) (s : Tracker) (it : PersonModel) :
    Option (PersonModel × Tracker × Effects) :=
  let position := env.medianFilter it
  if it.id = s.targetId then
    let marker : InteractiveMarker :=
      { name := markerName it.id, description := targetDescription it.id,
        x := position.x, y := position.y, color := (1, 0, 0) }
    let final_position : Point3d := { x := position.x, y := position.y, z := 0 }
    let bbCenter := env.getCenter it.rect
    let z := env.getZ bbCenter { x := position.x, y := position.y } mapToCameraTransform
      s.cameramodel
    match zStep s.median_window s.z_history z with
    | Option.none => Option.none
    | some (z_history, medianZ) =>
      if normGt { x := position.x, y := position.y, z := medianZ } s.lastFixationPoint
          s.gaze_threshold then
        some ({ it with lockedOnce := true },
          { s with z_history := z_history,
                   lastFixationPoint := { x := position.x, y := position.y, z := z } },
          { goals := [GazeGoal.FIXATION { x := position.x, y := position.y, z := medianZ }
                        s.fixation_tolerance],
            positions := [final_position], markers := [marker] })
      else
        some ({ it with lockedOnce := true }, { s with z_history := z_history },
          { goals := [], positions := [final_position], markers := [marker] })
  else
    some (it, s,
      { goals := [], positions := [],
        markers := [{ name := markerName it.id, description := markerDescription it.id,
                      x := position.x, y := position.y, color := (0, 1, 0) }] })

/-- Lines 368-500: the loop of the chosen-person branch over the local vector. -/
def followLoop (env : Env) (mapToCameraTransform : Mat44) :
    List PersonModel → Tracker → Option (List PersonModel × Tracker × Effects)
  | [], s => some ([], s, Effects.none)
  | it :: rest, s =>
    match followStep env mapToCameraTransform s it with
    | Option.none => Option.none
    | some (it', s₁, e₁) =>
      match followLoop env mapToCameraTransform rest s₁ with
      | Option.none => Option.none
      | some (rest', s₂, e₂) => some (it' :: rest', s₂, e₁.append e₂)

/-- Line 305: `mapToCameraTransform(Range(0,3), Range(0,4))`. -/
def sliceRT (mapToCameraTransform : Mat44) : Matrix (Fin 3) (Fin 4) ℚ :=
  Matrix.of fun i j => mapToCameraTransform i.castSucc j

/-- The call `invert(RT, RT)` of line 307: `cv::invert` with its default LU method on
a matrix of `m` rows and `n` columns.  The LU method is for square matrices: the
library asserts `m == n` and raises a `cv::Exception` otherwise (`none`); on a square
matrix it is `invert`. -/
def invertRT {m n : ℕ} (RT : Matrix (Fin m) (Fin n) ℚ) : Option (Matrix (Fin m) (Fin n) ℚ) :=
  if h : m = n then
    some ((invert (RT.submatrix id (Fin.cast h))).submatrix id (Fin.cast h.symm))
  else Option.none

/-- The read `pointOnCamFrame.at<double>(i, 0)` of line 320 on a column of `k` rows:
no value when row `i` is outside the matrix. -/
def atRow {k : ℕ} (pointOnCamFrame : Fin k → ℚ) (i : ℕ) : Option ℚ :=
  if h : i < k then some (pointOnCamFrame ⟨i, h⟩) else Option.none

/-- Lines 320-325: the update of `closest_dist` and `closest_person_id` for a
track whose camera-frame point has the rows `z` and `w` at the indices 2 and 3. -/
def closer (z w : ℚ) (id : Int) (closest : ℚ × Int) : ℚ × Int :=
  match fdiv z w with
  | Option.none => closest
  | some q => if |q| < closest.1 then (|q|, id) else closest

/-- Lines 304-325: the body of the loop that chooses the nearest person, for the
element `it`: the slice `RT`, its inversion, the product with the homogeneous point
and the update of `(closest_dist, closest_person_id)`.  `none` when the inversion
raises the exception or a row outside the product is read. -/
def nearestStep (mapToCameraTransform : Mat44) (it : PersonModel) (closest : ℚ × Int) :
    Option (ℚ × Int) :=
  match invertRT (sliceRT mapToCameraTransform) with
  | Option.none => Option.none
  | some RT =>
    let pointOnCamFrame := RT.mulVec ![it.position.x, it.position.y, 0, 1]
    match atRow pointOnCamFrame 2, atRow pointOnCamFrame 3 with
    | some z, some w => some (closer z w it.id closest)
    | _, _ => Option.none

/-- Lines 302-330: the loop that chooses the nearest person, entered with
`closest = (closest_dist, closest_person_id)`.  Returns `personNotChosenFlag` and
`targetId`; `none` when the body does not complete for an element. -/
def nearestLoop (mapToCameraTransform : Mat44) :
    List PersonModel → ℚ × Int → Bool × Int → Option (Bool × Int)
  | [], _, r => some r
  | it :: rest, closest, _ =>
    match nearestStep mapToCameraTransform it closest with
    | Option.none => Option.none
    | some c => nearestLoop mapToCameraTransform rest c (false, c.2)

/-- Lines 332-363: the markers of the branch in which no person was chosen. -/
def unchosenMarkers (env : Env) (targetId : Int) (list : List PersonModel) :
    List InteractiveMarker :=
  list.map fun it =>
    { name := markerName it.id, description := markerDescription it.id,
      x := (env.medianFilter it).x, y := (env.medianFilter it).y,
      color := if targetId ≠ it.id then (0, 1, 0) else (1, 0, 0) }

/-- Lines 183-267 with the transform found: projection of the feet, filter,
association and the deletion loop.  Returns the tracker and the goals sent. -/
def associateAndDelete (env : Env) (s : Tracker) (detection : DetectionList)
    (transform_opencv : Mat44) : Tracker × List GazeGoal :=
  let mapToCameraTransform := invert transform_opencv
  let feetImagePoints := detection.bbVector.map env.getFeet
  let coordsInBaseFrame :=
    s.cameramodel.calculatePointsOnWorldFrame feetImagePoints mapToCameraTransform
  let kept := env.filterDetectionsByPersonSize coordsInBaseFrame detection.bbVector
    mapToCameraTransform
  let associated := env.associateData s.personList kept.1 kept.2
  let r := deleteTrackers associated.personList s.personNotChosenFlag s.targetId
  ({ s with personList := { associated with personList := r.1 },
            personNotChosenFlag := r.2.1, targetId := r.2.2.1 }, r.2.2.2)

/-- Lines 271-503: the selection step on the local vector `list`. -/
def selectionStep (env : Env) (mapToCameraTransform : Mat44) (s : Tracker)
    (list : List PersonModel) : Option (Tracker × Effects) :=
  if s.personNotChosenFlag then
    match nearestLoop mapToCameraTransform list (100000000000000, 0)
        (s.personNotChosenFlag, s.targetId) with
    | Option.none => Option.none
    | some r =>
      some ({ s with personNotChosenFlag := r.1, targetId := r.2, frame := s.frame + 1 },
        { Effects.none with markers := unchosenMarkers env r.2 list })
  else
    match followLoop env mapToCameraTransform list s with
    | Option.none => Option.none
    | some (_, s', e) => some ({ s' with frame := s'.frame + 1 }, e)

/-- The method `Tracker::trackingCallback`, lines 163-504.  `none` stands for a run
that leaves defined behaviour or ends in an exception that is not caught. -/
def trackingCallback (env : Env) (s : Tracker) (detection : DetectionList) :
    Option (Tracker × Effects) :=
  let s₀ := { s with last_image_header := detection.header }
  match env.lookupTransform detection.header with
  | Option.none => some (s₀, Effects.none)
  | some transform_opencv =>
    let r := associateAndDelete env s₀ detection transform_opencv
    match selectionStep env (invert transform_opencv) r.1
        (env.getValidTrackerPosition r.1.personList) with
    | Option.none => Option.none
    | some (s', e) => some (s', { e with goals := r.2 ++ e.goals })

/-- Lines 531-532: `z_history[i] = 0.95` for the `n` indices from `i` on. -/
def initLoop : ℕ → ℕ → List ℚ → Option (List ℚ)
  | 0, _, z_history => some z_history
  | n + 1, i, z_history =>
    if i < z_history.length then initLoop n (i + 1) (z_history.set i (19 / 20))
    else Option.none

/-- The constructor, lines 505-586, for given parameter values.  `z_history` and
`targetId` are not initialised by the class: `z_garbage` (100 entries) and
`targetId_garbage` are what the memory holds. -/
def Tracker.new (K : Mat33) (gaze_threshold : ℚ) (median_window : ℕ) (fixation_tolerance : ℚ)
    (numberOfFramesBeforeDestruction numberOfFramesBeforeDestructionLocked : Int)
    (associatingDistance : ℚ) (z_garbage : List ℚ) (targetId_garbage : Int) : Option Tracker :=
  match initLoop median_window 0 z_garbage with
  | Option.none => Option.none
  | some z_history =>
    some
      { cameramodel := cameraModel.new K
        personNotChosenFlag := true
        personList :=
          { nPersons := 0, personList := [], median_window := median_window,
            numberOfFramesBeforeDestruction := numberOfFramesBeforeDestruction,
            numberOfFramesBeforeDestructionLocked := numberOfFramesBeforeDestructionLocked,
            associatingDistance := associatingDistance }
        lastFixationPoint := { x := 1000, y := 1000, z := 1000 }
        z_history := z_history
        last_image_header := { stamp := 0 }
        targetId := targetId_garbage
        gaze_threshold := gaze_threshold
        median_window := median_window
        fixation_tolerance := fixation_tolerance
        frame := 1 }

/-! ## Example inputs -/

/-- An intrinsic matrix: focal length 2, principal point (1, 1). -/
def exampleK : Mat33 := !![2, 0, 1; 0, 2, 1; 0, 0, 1]

/-- A world-to-camera transform whose planar homography is the identity. -/
def exampleT : Mat44 := !![1, 0, 0, 0; 0, 1, 0, 0; 0, 0, 1, 1; 0, 0, 0, 1]

/-- A track with identifier 1 standing at the world point (1, 0). -/
def examplePerson : PersonModel :=
  { id := 1, noDetection := 0, position := { x := 1, y := 0 },
    positionHistory := [{ x := 1, y := 0 }],
    rectHistory := [{ x := 10, y := 10, width := 20, height := 40 }],
    rect := { x := 10, y := 10, width := 20, height := 40 },
    toBeDeleted := false, lockedOnce := false }

/-- A tracker with the default parameters that follows `examplePerson` and has not
sent a fixation goal yet: the history holds 0.95 in its window. -/
def exampleTracker : Tracker :=
  { cameramodel := cameraModel.new exampleK
    personNotChosenFlag := false
    personList :=
      { nPersons := 1, personList := [examplePerson], median_window := 5,
        numberOfFramesBeforeDestruction := 25, numberOfFramesBeforeDestructionLocked := 35,
        associatingDistance := 1 / 2 }
    lastFixationPoint := { x := 1000, y := 1000, z := 1000 }
    z_history := List.replicate 5 (19 / 20) ++ List.replicate 95 0
    last_image_header := { stamp := 0 }
    targetId := 1
    gaze_threshold := 1 / 5
    median_window := 5
    fixation_tolerance := 1 / 10
    frame := 2 }

/-- Modelled from the spec: a frame without associated detection for a track (§4.3
steps 3 and 4), whose code (`personMotionModel.cpp`) is absent from the sources: the
miss counter grows by one and the track is marked once the counter exceeds its
threshold, the locked one for a locked track. -/
def ageTrack (pl : PersonList) (p : PersonModel) : PersonModel :=
  { p with
    noDetection := p.noDetection + 1
    toBeDeleted := decide ((if p.lockedOnce then pl.numberOfFramesBeforeDestructionLocked
      else pl.numberOfFramesBeforeDestruction) < p.noDetection + 1) }

/-- An instance of the collaborators for frames without detections, on which the
callback is run in the examples: every lookup gives `exampleT`, the filter keeps
everything, association ages every track, the smoothed position of a track is its
position, and the raw depth is always 3. -/
def exampleEnv : Env :=
  { lookupTransform := fun _ => some exampleT
    getFeet := fun r => { x := (r.x : ℚ) + r.width / 2, y := (r.y : ℚ) + r.height }
    filterDetectionsByPersonSize := fun coords rects _ => (coords, rects)
    associateData := fun pl _ _ => { pl with personList := pl.personList.map (ageTrack pl) }
    getValidTrackerPosition := fun pl => pl.personList
    medianFilter := fun p => { x := p.position.x, y := p.position.y, z := 0 }
    getCenter := fun r => { x := (r.x : ℚ) + r.width / 2, y := (r.y : ℚ) + r.height / 2 }
    getZ := fun _ _ _ _ => 3 }

/-- A frame without detections. -/
def emptyFrame (stamp : ℕ) : DetectionList :=
  { header := { stamp := stamp }, bbVector := [] }

/-- A tracker with no person chosen whose registry holds track 1 at the world point
(-5, 0) and track 2 at (1, 0). -/
def twoPersonTracker : Tracker :=
  { exampleTracker with
    personNotChosenFlag := true
    targetId := -1
    personList :=
      { exampleTracker.personList with
        nPersons := 2
        personList := [{ examplePerson with position := { x := -5, y := 0 } },
                       { examplePerson with id := 2, position := { x := 1, y := 0 } }] } }

/-! ## Program points and quantities named in the statements -/

/-- The tracker when control reaches line 271, for a frame whose transform is
`transform_opencv`. -/
def stateAtSelection (env : Env) (s : Tracker) (detection : DetectionList)
    (transform_opencv : Mat44) : Tracker :=
  (associateAndDelete env { s with last_image_header := detection.header } detection
    transform_opencv).1

/-- The local vector `list` of line 271. -/
def smoothedList (env : Env) (s : Tracker) (detection : DetectionList)
    (transform_opencv : Mat44) : List PersonModel :=
  env.getValidTrackerPosition (stateAtSelection env s detection transform_opencv).personList

/-- Line 439: the candidate fixation point `(x, y, medianZ)` of the target `it`. -/
def fixationCandidate (env : Env) (it : PersonModel) (medianZ : ℚ) : Point3d :=
  { x := (env.medianFilter it).x, y := (env.medianFilter it).y, z := medianZ }

/-- Line 424: the raw depth of the target `it`. -/
def rawZ (env : Env) (s : Tracker) (transform_opencv : Mat44) (it : PersonModel) : ℚ :=
  env.getZ (env.getCenter it.rect)
    { x := (env.medianFilter it).x, y := (env.medianFilter it).y } (invert transform_opencv)
    s.cameramodel

/-- The callback run on successive frames; returns the last tracker and what each
frame sent. -/
def runFrames (env : Env) : Tracker → List DetectionList → Option (Tracker × List Effects)
  | s, [] => some (s, [])
  | s, d :: ds =>
    match trackingCallback env s d with
    | Option.none => Option.none
    | some (s', e) =>
      match runFrames env s' ds with
      | Option.none => Option.none
      | some (s'', es) => some (s'', e :: es)

/-! ## Further quantities named in the statements -/

/-- The update of lines 426-432 on the raw depths of successive frames; returns the
last history and the medians, in order. -/
def zRun (median_window : ℕ) : List ℚ → List ℚ → Option (List ℚ × List ℚ)
  | z_history, [] => some (z_history, [])
  | z_history, z :: zs =>
    match zStep median_window z_history z with
    | Option.none => Option.none
    | some (z_history', medianZ) =>
      match zRun median_window z_history' zs with
      | Option.none => Option.none
      | some (last, medians) => some (last, medianZ :: medians)

/-- The planar homography written out: rows 0-2 of columns 0, 1 and 3 of the
transform. -/
def planarH (T : Mat44) : Mat33 :=
  !![T 0 0, T 0 1, T 0 3; T 1 0, T 1 1, T 1 3; T 2 0, T 2 1, T 2 3]

/-! ## The track and the registry, modelled from the spec -/

/-- Modelled from the spec: a detection handed to `associateData` (absent from the
sources, like all of `personMotionModel.cpp`): its place in the input, its world
point and its rectangle. -/
structure Detection where
  index : ℕ
  point : Point3d
  rect : Rect
deriving DecidableEq

/-- Modelled from the spec: the square of the Euclidean world-plane distance between
a track position and a detection (§4.3 step 1); distances compare as their
squares do. -/
def sqDist (p : Point2d) (d : Point3d) : ℚ :=
  (p.x - d.x) ^ 2 + (p.y - d.y) ^ 2

/-- Modelled from the spec: the gate of §4.3 step 1, distance `≤ associatingDistance`,
decided on the squares. -/
def withinDistance (p : Point2d) (d : Point3d) (associatingDistance : ℚ) : Bool :=
  decide (0 ≤ associatingDistance ∧ sqDist p d ≤ associatingDistance ^ 2)

/-- Modelled from the spec: the detection of minimum distance to `p` among the
candidates, the earliest one when several are at that distance (§4.3 step 1). -/
def nearestDetection (p : Point2d) : List Detection → Option Detection
  | [] => Option.none
  | d :: ds =>
    match nearestDetection p ds with
    | Option.none => some d
    | some e => if sqDist p d.point ≤ sqDist p e.point then some d else some e

/-- Modelled from the spec: an associated track (§4.3 step 1): the miss counter is
reset, the position and the rectangle are pushed in front of the histories, which
keep at most `median_window` entries; the deletion flag is derived from the
counter. -/
def updateTrack (pl : PersonList) (p : PersonModel) (d : Detection) : PersonModel :=
  { p with
    noDetection := 0
    position := { x := d.point.x, y := d.point.y }
    rect := d.rect
    positionHistory :=
      (({ x := d.point.x, y := d.point.y } : Point2d) :: p.positionHistory).take pl.median_window
    rectHistory := (d.rect :: p.rectHistory).take pl.median_window
    toBeDeleted := decide ((if p.lockedOnce then pl.numberOfFramesBeforeDestructionLocked
      else pl.numberOfFramesBeforeDestruction) < 0) }

/-- Modelled from the spec: the track spawned by a detection left unassociated
(§4.3 step 2): a fresh identifier, histories filled with the first sample, miss
counter 0, not locked. -/
def newTrack (pl : PersonList) (id : Int) (d : Detection) : PersonModel :=
  { id := id
    noDetection := 0
    position := { x := d.point.x, y := d.point.y }
    positionHistory := List.replicate pl.median_window { x := d.point.x, y := d.point.y }
    rectHistory := List.replicate pl.median_window d.rect
    rect := d.rect
    toBeDeleted := decide (pl.numberOfFramesBeforeDestruction < 0)
    lockedOnce := false }

/-- Modelled from the spec: the detection that §4.3 step 1 associates with the track
`p` among the detections not yet associated: the nearest one, when it is within
`associatingDistance`. -/
def chooseDetection (pl : PersonList) (p : PersonModel) (dets : List Detection) :
    Option Detection :=
  match nearestDetection p.position dets with
  | Option.none => Option.none
  | some d =>
    if withinDistance p.position d.point pl.associatingDistance then some d else Option.none

/-- Modelled from the spec: the greedy pass of §4.3 steps 1 and 3 over the tracks, in
order, with the detections not yet associated.  Returns each track as updated with
the index of its detection, if any, and the detections left. -/
def associateTracks (pl : PersonList) :
    List PersonModel → List Detection → List (PersonModel × Option ℕ) × List Detection
  | [], dets => ([], dets)
  | p :: ps, dets =>
    match chooseDetection pl p dets with
    | Option.none =>
      ((ageTrack pl p, Option.none) :: (associateTracks pl ps dets).1,
        (associateTracks pl ps dets).2)
    | some d =>
      ((updateTrack pl p d, some d.index)
          :: (associateTracks pl ps (dets.filter fun e => decide (e.index ≠ d.index))).1,
        (associateTracks pl ps (dets.filter fun e => decide (e.index ≠ d.index))).2)

/-- Modelled from the spec: the detections numbered from `n` on in input order. -/
def indexFrom : ℕ → List (Point3d × Rect) → List Detection
  | _, [] => []
  | n, d :: ds => { index := n, point := d.1, rect := d.2 } :: indexFrom (n + 1) ds

/-- Modelled from the spec: the detections of a frame, the `k`-th world point with
the `k`-th rectangle. -/
def indexDetections (coordsInBaseFrame : List Point3d) (rects : List Rect) : List Detection :=
  indexFrom 0 (coordsInBaseFrame.zip rects)

/-- Modelled from the spec: the new tracks of §4.3 step 2, with the identifiers that
follow `nPersons`. -/
def spawnTracks (pl : PersonList) : Int → List Detection → List PersonModel
  | _, [] => []
  | nPersons, d :: ds => newTrack pl (nPersons + 1) d :: spawnTracks pl (nPersons + 1) ds

/-- Modelled from the spec: for each track of the registry, in order, the index of
the detection associated with it by `associateData`, if any. -/
def PersonList.assignment (pl : PersonList) (coordsInBaseFrame : List Point3d)
    (rects : List Rect) : List (Option ℕ) :=
  (associateTracks pl pl.personList (indexDetections coordsInBaseFrame rects)).1.map Prod.snd

/-- Modelled from the spec: the method `PersonList::associateData` (§4.3 steps 1-4),
whose code is absent from the sources: the existing tracks, updated or aged,
followed by one new track per detection left unassociated. -/
def PersonList.associateData (pl : PersonList) (coordsInBaseFrame : List Point3d)
    (rects : List Rect) : PersonList :=
  { pl with
    personList :=
      (associateTracks pl pl.personList (indexDetections coordsInBaseFrame rects)).1.map Prod.fst
        ++ spawnTracks pl pl.nPersons
            (associateTracks pl pl.personList (indexDetections coordsInBaseFrame rects)).2
    nPersons := pl.nPersons
      + (associateTracks pl pl.personList (indexDetections coordsInBaseFrame rects)).2.length }

/-- Modelled from the spec: the method `PersonModel::medianFilter` (§4.3 step 5), whose
code is absent from the sources: on each axis the entry at index
`floor((w - 1) / 2)` of the sorted values of the history, `w` being the number of
entries of the history array. -/
def PersonModel.medianFilter (p : PersonModel) : Point3d :=
  { x := ((p.positionHistory.map fun q => q.x).insertionSort (· ≤ ·)).getD
      ((p.positionHistory.length - 1) / 2) 0
    y := ((p.positionHistory.map fun q => q.y).insertionSort (· ≤ ·)).getD
      ((p.positionHistory.length - 1) / 2) 0
    z := 0 }

/-- Three detections of a frame: one far away, then two at distance 1/4 of the point
(1, 0). -/
def exampleCoords : List Point3d :=
  [{ x := 5, y := 5, z := 0 }, { x := 1, y := 1 / 4, z := 0 }, { x := 1, y := -1 / 4, z := 0 }]

/-- The rectangles of `exampleCoords`. -/
def exampleRects : List Rect :=
  [{ x := 0, y := 0, width := 10, height := 20 }, { x := 30, y := 0, width := 10, height := 20 },
   { x := 60, y := 0, width := 10, height := 20 }]

/-- A track whose history holds the x values 1000, 4, 3, 2, 1, most recent first. -/
def outlierPerson : PersonModel :=
  { examplePerson with
    positionHistory := [{ x := 1000, y := 0 }, { x := 4, y := 7 }, { x := 3, y := 1 },
                        { x := 2, y := 9 }, { x := 1, y := 2 }] }

/-! ## Array indices and program points of the last statements -/

/-- Lines 531-532: the indices of `z_history` written by `n` iterations of the
constructor loop, from `i` on. -/
def initIndices : ℕ → Int → List Int
  | 0, _ => []
  | n + 1, i => i :: initIndices n (i + 1)

/-- Lines 426-427: the indices of `z_history` used by `n` iterations of the shift loop
from `i` on, in each iteration the index read and then the index written. -/
def shiftIndices (median_window : Int) : ℕ → Int → List Int
  | 0, _ => []
  | n + 1, i =>
    (median_window - 1 - (i + 1)) :: (median_window - 1 - i)
      :: shiftIndices median_window n (i + 1)

/-- Lines 426-430: the indices of `z_history` used by the update: the shift loop, the
store of line 428 and the copy of the 100 entries into `z_vect`. -/
def updateIndices (median_window : ℕ) : List Int :=
  shiftIndices median_window (median_window - 1) 0 ++ [0]
    ++ (List.range 100).map Int.ofNat

/-- Line 431: the indices of `z_vect` in the range handed to `std::sort`. -/
def sortIndices (median_window : ℕ) : List Int :=
  (List.range median_window).map Int.ofNat

/-- Line 432: the index `(int) round((median_window-1)/2)` passed to `z_vect.at`, with
the truncating division of `int`. -/
def atIndex (median_window : ℕ) : Int :=
  Int.tdiv ((median_window : Int) - 1) 2

/-- The vector `personList->personList` when the deletion loop starts, line 238. -/
def registryAtDeletion (env : Env) (s : Tracker) (detection : DetectionList)
    (transform_opencv : Mat44) : List PersonModel :=
  (env.associateData s.personList
    (env.filterDetectionsByPersonSize
      (s.cameramodel.calculatePointsOnWorldFrame (detection.bbVector.map env.getFeet)
        (invert transform_opencv)) detection.bbVector (invert transform_opencv)).1
    (env.filterDetectionsByPersonSize
      (s.cameramodel.calculatePointsOnWorldFrame (detection.bbVector.map env.getFeet)
        (invert transform_opencv)) detection.bbVector (invert transform_opencv)).2).personList

/-- The tracker `exampleTracker` after a goal whose stored point is (1, 0, 1). -/
def staleTracker : Tracker :=
  { exampleTracker with lastFixationPoint := { x := 1, y := 0, z := 1 } }

/-- A frame with one detection, the rectangle of width 20 and height 40 at (10, 10). -/
def oneDetectionFrame (stamp : ℕ) : DetectionList :=
  { header := { stamp := stamp },
    bbVector := [{ x := 10, y := 10, width := 20, height := 40 }] }

/-- The collaborators of `exampleEnv` with a detection filter that keeps no detection
(none has the size of a person), for frames with detections: association receives
no detection and ages every track. -/
def rejectingEnv : Env :=
  { exampleEnv with filterDetectionsByPersonSize := fun _ _ _ => ([], []) }

/-- The collaborators of `rejectingEnv` with a registry none of whose tracks is valid
after the median filter: `getValidTrackerPosition` returns no track. -/
def warmingEnv : Env :=
  { rejectingEnv with getValidTrackerPosition := fun _ => [] }

/-! ## Theorems: the camera model -/

theorem invert_eq_inv {n : ℕ} (M : Matrix (Fin n) (Fin n) ℚ) : invert M = M⁻¹ := by
  unfold invert
  rw [Matrix.inv_def, Ring.inverse_eq_inv']
  split_ifs with h
  · simp [h]
  · rfl

theorem invert_mulVec_mulVec {n : ℕ} (M : Matrix (Fin n) (Fin n) ℚ) (h : M.det ≠ 0)
    (v : Fin n → ℚ) : (invert M).mulVec (M.mulVec v) = v := by
  rw [invert_eq_inv, Matrix.mulVec_mulVec,
    Matrix.nonsing_inv_mul M (isUnit_iff_ne_zero.mpr h), Matrix.one_mulVec]

theorem invert_singular {n : ℕ} (M : Matrix (Fin n) (Fin n) ℚ) (h : M.det = 0) :
    invert M = 0 := by
  simp [invert, h]

theorem fdiv_mul_cancel (c a : ℚ) (hc : c ≠ 0) : fdiv (c * a) (c * 1) = some a := by
  unfold fdiv
  rw [if_neg (by simpa using hc)]
  congr 1
  field_simp

theorem homography_exampleT : homography exampleT = 1 := by
  ext i j
  fin_cases i <;> fin_cases j <;> rfl

theorem det_exampleK : exampleK.det ≠ 0 := by
  simp [exampleK, Matrix.det_fin_three, Matrix.vecHead, Matrix.vecTail]

theorem image_example :
    (exampleK * homography exampleT).mulVec ![2, 3, 1] = ![5, 7, 1] := by
  rw [homography_exampleT, mul_one]
  funext i
  fin_cases i <;>
    simp [exampleK, Matrix.mulVec, Matrix.dotProduct, Fin.sum_univ_three] <;> norm_num

/-- C9. Projection round trip in exact arithmetic: when the intrinsic matrix `K` and
the planar homography `H` of the transform `T` are invertible and the image
`p = K * H * (x, y, 1)` of the ground point `(x, y, 0)` has a non-zero third
coordinate, `calculatePointsOnWorldFrame` applied to the image point
`(p0/p2, p1/p2)` and `T` returns the single point `(x, y, 0)`. -/
theorem calculatePointsOnWorldFrame_roundtrip (K : Mat33) (T : Mat44) (x y : ℚ)
    (hK : K.det ≠ 0) (hH : (homography T).det ≠ 0)
    (hp : (K * homography T).mulVec ![x, y, 1] 2 ≠ 0) :
    (cameraModel.new K).calculatePointsOnWorldFrame
        [{ x := (K * homography T).mulVec ![x, y, 1] 0 / (K * homography T).mulVec ![x, y, 1] 2,
           y := (K * homography T).mulVec ![x, y, 1] 1 / (K * homography T).mulVec ![x, y, 1] 2 }]
        T
      = [{ x := some x, y := some y, z := some 0 }] := by
  set p := (K * homography T).mulVec ![x, y, 1] with hpdef
  have hvec : (![p 0 / p 2, p 1 / p 2, 1] : Fin 3 → ℚ) = (p 2)⁻¹ • p := by
    funext i
    fin_cases i
    · simp [div_eq_inv_mul]
    · simp [div_eq_inv_mul]
    · simp [hp]
  have hh : homogeneousP (cameraModel.new K) T ⟨p 0 / p 2, p 1 / p 2⟩
      = (p 2)⁻¹ • ![x, y, 1] := by
    unfold homogeneousP cameraModel.new
    simp only
    rw [hvec, Matrix.mulVec_smul, Matrix.mulVec_smul, hpdef, ← Matrix.mulVec_mulVec,
      invert_mulVec_mulVec K hK, invert_mulVec_mulVec _ hH]
  have hinv : (p 2)⁻¹ ≠ 0 := inv_ne_zero hp
  simp only [cameraModel.calculatePointsOnWorldFrame, List.map_cons, List.map_nil, hh]
  have e0 : ((p 2)⁻¹ • ![x, y, 1]) 0 = (p 2)⁻¹ * x := by simp
  have e1 : ((p 2)⁻¹ • ![x, y, 1]) 1 = (p 2)⁻¹ * y := by simp
  have e2 : ((p 2)⁻¹ • ![x, y, 1]) 2 = (p 2)⁻¹ * 1 := by simp
  rw [e0, e1, e2, fdiv_mul_cancel _ _ hinv, fdiv_mul_cancel _ _ hinv]

/-- Witness of C9: the ground point (2, 3, 0) has image (5, 7) under `exampleK` and
`exampleT`, and is recovered from it. -/
theorem calculatePointsOnWorldFrame_roundtrip_witness :
    exampleK.det ≠ 0 ∧ (homography exampleT).det ≠ 0 ∧
    (exampleK * homography exampleT).mulVec ![2, 3, 1] = ![5, 7, 1] ∧
    (cameraModel.new exampleK).calculatePointsOnWorldFrame [{ x := 5, y := 7 }] exampleT
      = [{ x := some 2, y := some 3, z := some 0 }] := by
  have hH : (homography exampleT).det ≠ 0 := by simp [homography_exampleT]
  have h := calculatePointsOnWorldFrame_roundtrip exampleK exampleT 2 3 det_exampleK hH
    (by rw [image_example]; simp)
  rw [image_example] at h
  exact ⟨det_exampleK, hH, image_example, by simpa using h⟩

/-- Counterexample to C10: with the singular intrinsic matrix 0 the call raises
nothing and returns one point for the one image point, with no finite `x` and `y`. -/
theorem calculatePointsOnWorldFrame_singular_counterexample :
    (0 : Mat33).det = 0 ∧
    (cameraModel.new 0).calculatePointsOnWorldFrame [{ x := 5, y := 7 }] exampleT
      = [{ x := Option.none, y := Option.none, z := some 0 }] := by
  refine ⟨by simp [Matrix.det_fin_three], ?_⟩
  have h0 : invert (0 : Mat33) = 0 := invert_singular 0 (by simp [Matrix.det_fin_three])
  simp [cameraModel.calculatePointsOnWorldFrame, homogeneousP, cameraModel.new, h0, fdiv]

/-- C10 as amended. When the intrinsic matrix or the planar homography of the transform
is singular, `calculatePointsOnWorldFrame` signals no error: it returns one point
per image point, each with `z = 0` and with no finite `x` and `y` (the quotient of
two zeros). -/
theorem calculatePointsOnWorldFrame_singular (K : Mat33) (T : Mat44)
    (imagePoints : List Point2d) (h : K.det = 0 ∨ (homography T).det = 0) :
    (cameraModel.new K).calculatePointsOnWorldFrame imagePoints T
      = imagePoints.map fun _ => { x := Option.none, y := Option.none, z := some 0 } := by
  have hz : ∀ p, homogeneousP (cameraModel.new K) T p = 0 := by
    intro p
    unfold homogeneousP cameraModel.new
    rcases h with h | h
    · simp [invert_singular K h]
    · simp [invert_singular _ h]
  unfold cameraModel.calculatePointsOnWorldFrame
  apply List.map_congr_left
  intro p _
  simp [hz p, fdiv]

/-- Witness of the amended C10, at a singular homography: the identity transform has
the homography with a zero third column. -/
theorem calculatePointsOnWorldFrame_singular_witness :
    (homography (1 : Mat44)).det = 0 ∧
    (cameraModel.new exampleK).calculatePointsOnWorldFrame
        [{ x := 5, y := 7 }, { x := 1, y := 2 }] 1
      = [{ x := Option.none, y := Option.none, z := some 0 },
         { x := Option.none, y := Option.none, z := some 0 }] := by
  have hd : (homography (1 : Mat44)).det = 0 := by
    simp [homography, Matrix.det_fin_three, Matrix.one_apply]
    decide
  exact ⟨hd, by
    simpa using calculatePointsOnWorldFrame_singular exampleK 1
      [{ x := 5, y := 7 }, { x := 1, y := 2 }] (Or.inr hd)⟩

/-! ## Theorems: the deletion loop -/

theorem deleteTrackers_goals_home (l : List PersonModel) (flag : Bool) (targetId : Int) :
    ∀ g ∈ (deleteTrackers l flag targetId).2.2.2, g = GazeGoal.HOME := by
  induction l generalizing flag targetId with
  | nil => simp [deleteTrackers]
  | cons it rest ih =>
    unfold deleteTrackers
    split_ifs with h1 h2
    · intro g hg
      simp only [List.mem_cons] at hg
      rcases hg with hg | hg
      · exact hg
      · exact ih true (-1) g hg
    · exact ih flag targetId
    · exact ih flag targetId

theorem deleteTrackers_unselected (l : List PersonModel) :
    (deleteTrackers l true (-1)).2.1 = true ∧ (deleteTrackers l true (-1)).2.2.1 = -1 := by
  induction l with
  | nil => simp [deleteTrackers]
  | cons it rest ih =>
    unfold deleteTrackers
    split_ifs with h1 h2
    · exact ih
    · exact ih
    · exact ih

theorem deleteTrackers_no_target (l : List PersonModel) (flag : Bool) (targetId : Int)
    (h : ¬ ∃ p ∈ l, p.toBeDeleted = true ∧ p.id = targetId) :
    (deleteTrackers l flag targetId).2.1 = flag ∧
    (deleteTrackers l flag targetId).2.2.1 = targetId ∧
    (deleteTrackers l flag targetId).2.2.2 = [] := by
  induction l with
  | nil => simp [deleteTrackers]
  | cons it rest ih =>
    have hrest : ¬ ∃ p ∈ rest, p.toBeDeleted = true ∧ p.id = targetId := by
      rintro ⟨p, hp, hq⟩
      exact h ⟨p, List.mem_cons_of_mem _ hp, hq⟩
    unfold deleteTrackers
    split_ifs with h1 h2
    · exact absurd ⟨it, List.mem_cons_self _ _, h1, h2⟩ h
    · exact ih hrest
    · exact ih hrest

theorem deleteTrackers_with_target (l : List PersonModel) (flag : Bool) (targetId : Int)
    (h : ∃ p ∈ l, p.toBeDeleted = true ∧ p.id = targetId) :
    (deleteTrackers l flag targetId).2.1 = true ∧
    (deleteTrackers l flag targetId).2.2.1 = -1 ∧
    (deleteTrackers l flag targetId).2.2.2 ≠ [] := by
  induction l with
  | nil => simp at h
  | cons it rest ih =>
    unfold deleteTrackers
    split_ifs with h1 h2
    · exact ⟨(deleteTrackers_unselected rest).1, (deleteTrackers_unselected rest).2, by simp⟩
    · obtain ⟨p, hp, hd, hid⟩ := h
      rcases List.mem_cons.mp hp with hp | hp
      · subst hp
        exact absurd hid h2
      · exact ih ⟨p, hp, hd, hid⟩
    · obtain ⟨p, hp, hd, hid⟩ := h
      rcases List.mem_cons.mp hp with hp | hp
      · subst hp
        exact absurd hd h1
      · exact ih ⟨p, hp, hd, hid⟩

/-- C3. Target-deleted transition of the deletion loop of `trackingCallback`: when one
of the tracks it erases (a track marked `toBeDeleted`) has the identifier
`targetId`, the loop ends with `personNotChosenFlag = true` and `targetId = -1` and
has sent a goal, every goal sent being `HOME`; when no erased track is the target,
the flag and `targetId` keep their values and no goal is sent. -/
theorem deleteTrackers_target_deleted (l : List PersonModel) (personNotChosenFlag : Bool)
    (targetId : Int) :
    ((∃ p ∈ l, p.toBeDeleted = true ∧ p.id = targetId) →
      (deleteTrackers l personNotChosenFlag targetId).2.1 = true ∧
      (deleteTrackers l personNotChosenFlag targetId).2.2.1 = -1 ∧
      (deleteTrackers l personNotChosenFlag targetId).2.2.2 ≠ [] ∧
      ∀ g ∈ (deleteTrackers l personNotChosenFlag targetId).2.2.2, g = GazeGoal.HOME) ∧
    ((¬ ∃ p ∈ l, p.toBeDeleted = true ∧ p.id = targetId) →
      (deleteTrackers l personNotChosenFlag targetId).2.1 = personNotChosenFlag ∧
      (deleteTrackers l personNotChosenFlag targetId).2.2.1 = targetId ∧
      (deleteTrackers l personNotChosenFlag targetId).2.2.2 = []) := by
  constructor
  · intro h
    obtain ⟨h1, h2, h3⟩ := deleteTrackers_with_target l personNotChosenFlag targetId h
    exact ⟨h1, h2, h3, deleteTrackers_goals_home l personNotChosenFlag targetId⟩
  · exact deleteTrackers_no_target l personNotChosenFlag targetId

/-- Witness of C3: the loop on a registry whose only track is marked, once as the
target 1 and once while the target is 2. -/
theorem deleteTrackers_target_deleted_witness :
    ((deleteTrackers [{ examplePerson with toBeDeleted := true }] false 1).2.1 = true ∧
      (deleteTrackers [{ examplePerson with toBeDeleted := true }] false 1).2.2.1 = -1 ∧
      (deleteTrackers [{ examplePerson with toBeDeleted := true }] false 1).2.2.2 ≠ [] ∧
      ∀ g ∈ (deleteTrackers [{ examplePerson with toBeDeleted := true }] false 1).2.2.2,
        g = GazeGoal.HOME) ∧
    ((deleteTrackers [{ examplePerson with toBeDeleted := true }] false 2).2.1 = false ∧
      (deleteTrackers [{ examplePerson with toBeDeleted := true }] false 2).2.2.1 = 2 ∧
      (deleteTrackers [{ examplePerson with toBeDeleted := true }] false 2).2.2.2 = []) :=
  ⟨(deleteTrackers_target_deleted [{ examplePerson with toBeDeleted := true }] false 1).1
      ⟨_, List.mem_singleton_self _, rfl, rfl⟩,
   (deleteTrackers_target_deleted [{ examplePerson with toBeDeleted := true }] false 2).2
      (by simp [examplePerson])⟩

/-! ## Theorems: the click callback -/

/-- C4. Deselect transition: a click that `processFeedback` receives while a person is
chosen (`personNotChosenFlag = false`), whatever marker it names, leaves the tracker
with `personNotChosenFlag = true` and `targetId = -1`, every other field as it was,
and sends exactly one goal, of type `HOME`. -/
theorem processFeedback_deselect (s : Tracker) (feedback : InteractiveMarkerFeedback)
    (h : s.personNotChosenFlag = false) :
    processFeedback s feedback
      = ({ s with personNotChosenFlag := true, targetId := -1 },
         { goals := [GazeGoal.HOME], positions := [], markers := [] }) := by
  simp [processFeedback, h, Effects.none]

/-- Witness of C4: a second click on the marker of the followed person 1. -/
theorem processFeedback_deselect_witness :
    exampleTracker.personNotChosenFlag = false ∧
    (processFeedback exampleTracker { marker_name := markerName 1 }).1.personNotChosenFlag = true ∧
    (processFeedback exampleTracker { marker_name := markerName 1 }).1.targetId = -1 ∧
    (processFeedback exampleTracker { marker_name := markerName 1 }).2.goals = [GazeGoal.HOME] := by
  have h := processFeedback_deselect exampleTracker { marker_name := markerName 1 } rfl
  rw [h]
  exact ⟨rfl, rfl, rfl, rfl⟩

theorem digitChar_isDigit (d : ℕ) (h : d < 10) : (Nat.digitChar d).isDigit = true := by
  interval_cases d <;> rfl

theorem digitVal_digitChar (d : ℕ) (h : d < 10) : digitVal (Nat.digitChar d) = d := by
  interval_cases d <;> rfl

theorem isDigit_not_special (c : Char) (h : c.isDigit = true) :
    isSpace c = false ∧ c ≠ '-' ∧ c ≠ '+' := by
  have h48 : 48 ≤ c.toNat := by
    simp only [Char.isDigit, Bool.and_eq_true, decide_eq_true_eq] at h
    exact h.1
  refine ⟨?_, ?_, ?_⟩
  · by_contra hs
    simp only [isSpace, Bool.not_eq_false, Bool.or_eq_true, decide_eq_true_eq] at hs
    rcases hs with ((((hs | hs) | hs) | hs) | hs) | hs
    · rw [hs] at h48; revert h48; decide
    · rw [hs] at h48; revert h48; decide
    · rw [hs] at h48; revert h48; decide
    · rw [hs] at h48; revert h48; decide
    · omega
    · omega
  · intro hc; rw [hc] at h48; revert h48; decide
  · intro hc; rw [hc] at h48; revert h48; decide

theorem showNat_isDigit (n : ℕ) : ∀ c ∈ showNat n, c.isDigit = true := by
  intro c hc
  unfold showNat at hc
  split_ifs at hc with h0
  · rw [List.mem_singleton] at hc
    rw [hc]; rfl
  · rw [List.mem_map] at hc
    obtain ⟨d, hd, rfl⟩ := hc
    exact digitChar_isDigit d (Nat.digits_lt_base (by norm_num) (List.mem_reverse.mp hd))

theorem showNat_ne_nil (n : ℕ) : showNat n ≠ [] := by
  unfold showNat
  split_ifs with h0
  · simp
  · simpa [Nat.digits_eq_nil_iff_eq_zero] using h0

theorem foldr_digits (L : List ℕ) (h : ∀ d ∈ L, d < 10) :
    L.foldr (fun d acc => 10 * acc + digitVal (Nat.digitChar d)) 0 = Nat.ofDigits 10 L := by
  induction L with
  | nil => rfl
  | cons d L ih =>
    rw [List.foldr_cons, ih fun x hx => h x (List.mem_cons_of_mem _ hx), Nat.ofDigits_cons,
      digitVal_digitChar d (h d (List.mem_cons_self _ _))]
    simp [add_comm]

theorem parseNat_showNat (n : ℕ) : parseNat (showNat n) = n := by
  unfold showNat
  split_ifs with h0
  · rw [h0]; rfl
  · unfold parseNat
    rw [List.foldl_map, List.foldl_reverse,
      foldr_digits _ fun d hd => Nat.digits_lt_base (by norm_num) hd, Nat.ofDigits_digits]

theorem takeWhile_showNat (n : ℕ) : (showNat n).takeWhile Char.isDigit = showNat n :=
  List.takeWhile_eq_self_iff.mpr (showNat_isDigit n)

theorem clampInt_of_range (v : Int) (h₁ : -2147483648 ≤ v) (h₂ : v ≤ 2147483647) :
    clampInt v = v := by
  unfold clampInt
  split_ifs <;> omega

theorem extractDigits_showNat (negative : Bool) (n : ℕ) :
    extractDigits negative (showNat n)
      = clampInt (if negative then -(n : Int) else (n : Int)) := by
  unfold extractDigits
  rw [takeWhile_showNat, parseNat_showNat, if_neg (showNat_ne_nil n)]

theorem extractInt_showInt (old n : Int) (h₁ : -2147483648 ≤ n) (h₂ : n ≤ 2147483647) :
    extractInt old (' ' :: showInt n) = n := by
  cases n with
  | ofNat k =>
    obtain ⟨c, r, hcr⟩ := List.exists_cons_of_ne_nil (showNat_ne_nil k)
    have hc := showNat_isDigit k c (by rw [hcr]; exact List.mem_cons_self _ _)
    obtain ⟨hs, hm, hp⟩ := isDigit_not_special c hc
    have hdrop : (' ' :: showInt (Int.ofNat k)).dropWhile isSpace = c :: r := by
      have : isSpace ' ' = true := by decide
      rw [List.dropWhile_cons, if_pos this]
      show (showNat k).dropWhile isSpace = c :: r
      rw [hcr, List.dropWhile_cons, if_neg (by simp [hs])]
    unfold extractInt
    rw [hdrop]
    simp only [if_neg hm, if_neg hp]
    rw [← hcr, extractDigits_showNat]
    simp only [Bool.false_eq_true, if_false]
    exact clampInt_of_range _ h₁ h₂
  | negSucc k =>
    have hdrop : (' ' :: showInt (Int.negSucc k)).dropWhile isSpace = '-' :: showNat (k + 1) := by
      have h1 : isSpace ' ' = true := by decide
      have h2 : isSpace '-' = false := by decide
      rw [List.dropWhile_cons, if_pos h1]
      show ('-' :: showNat (k + 1)).dropWhile isSpace = _
      rw [List.dropWhile_cons, if_neg (by simp [h2])]
    unfold extractInt
    rw [hdrop]
    simp only [if_true]
    rw [extractDigits_showNat]
    simp only [if_true]
    rw [clampInt_of_range _ (by rw [Int.negSucc_eq] at h₁; push_cast; omega)
      (by push_cast; omega)]
    rw [Int.negSucc_eq]
    push_cast
    ring

theorem extractWord_markerName (n : Int) :
    extractWord (markerName n) = (['p', 'e', 'r', 's', 'o', 'n'], ' ' :: showInt n) := by
  have hp : isSpace 'p' = false := by decide
  have he : isSpace 'e' = false := by decide
  have hr : isSpace 'r' = false := by decide
  have hs : isSpace 's' = false := by decide
  have ho : isSpace 'o' = false := by decide
  have hn : isSpace 'n' = false := by decide
  have hsp : isSpace ' ' = true := by decide
  simp [extractWord, markerName, List.dropWhile_cons, List.takeWhile_cons, hp, he, hr, hs, ho,
    hn, hsp]

/-- C5. Select transition: a click that `processFeedback` receives while no person is
chosen (`personNotChosenFlag = true`) and that carries the marker name
`person <n>`, with `n` a 32-bit `int`, leaves the tracker with a person chosen
(`personNotChosenFlag = false`) and `targetId = n`, every other field as it was, and
sends no goal (nor anything else). -/
theorem processFeedback_select (s : Tracker) (n : Int) (h : s.personNotChosenFlag = true)
    (h₁ : -2147483648 ≤ n) (h₂ : n ≤ 2147483647) :
    processFeedback s { marker_name := markerName n }
      = ({ s with targetId := n, personNotChosenFlag := false },
         { goals := [], positions := [], markers := [] }) := by
  unfold processFeedback
  simp only [h, if_true, extractWord_markerName, extractInt_showInt s.targetId n h₁ h₂]
  simp [Effects.none]

/-- Witness of C5: a click on the marker `person 2` while no person is chosen. -/
theorem processFeedback_select_witness :
    twoPersonTracker.personNotChosenFlag = true ∧
    (processFeedback twoPersonTracker { marker_name := markerName 2 }).1.personNotChosenFlag
      = false ∧
    (processFeedback twoPersonTracker { marker_name := markerName 2 }).1.targetId = 2 ∧
    (processFeedback twoPersonTracker { marker_name := markerName 2 }).2.goals = [] := by
  have h := processFeedback_select twoPersonTracker 2 rfl (by decide) (by decide)
  rw [h]
  exact ⟨rfl, rfl, rfl, rfl⟩

/-! ## Theorems: the detection callback -/

/-- C8. Frame abandonment: when the transform lookup of `trackingCallback` throws, the
callback returns, sends no goal, no position and no marker, and leaves the
registry, `personNotChosenFlag`, `targetId`, `lastFixationPoint`, `z_history` (and the frame
counter) as they were; only `last_image_header` has been written. -/
theorem trackingCallback_lookup_failure (env : Env) (s : Tracker) (detection : DetectionList)
    (h : env.lookupTransform detection.header = Option.none) :
    ∃ s', trackingCallback env s detection = some (s', Effects.none) ∧
      s'.personList = s.personList ∧ s'.personNotChosenFlag = s.personNotChosenFlag ∧
      s'.targetId = s.targetId ∧ s'.lastFixationPoint = s.lastFixationPoint ∧
      s'.z_history = s.z_history ∧ s'.frame = s.frame ∧
      s'.last_image_header = detection.header := by
  refine ⟨{ s with last_image_header := detection.header }, ?_, rfl, rfl, rfl, rfl, rfl, rfl, rfl⟩
  simp [trackingCallback, h]

/-- Witness of C8: a frame for which the listener has no transform. -/
theorem trackingCallback_lookup_failure_witness :
    ∃ s', trackingCallback { exampleEnv with lookupTransform := fun _ => Option.none }
        exampleTracker (emptyFrame 7) = some (s', Effects.none) ∧
      s'.personList = exampleTracker.personList ∧
      s'.personNotChosenFlag = exampleTracker.personNotChosenFlag ∧
      s'.targetId = exampleTracker.targetId ∧
      s'.lastFixationPoint = exampleTracker.lastFixationPoint ∧
      s'.z_history = exampleTracker.z_history ∧ s'.frame = exampleTracker.frame ∧
      s'.last_image_header = { stamp := 7 } :=
  trackingCallback_lookup_failure { exampleEnv with lookupTransform := fun _ => Option.none }
    exampleTracker (emptyFrame 7) rfl

/-! ## Theorems: the chosen-person branch -/

theorem shiftLoop_isSome (w : ℕ) : ∀ (n i : ℕ) (h : List ℚ), i + n ≤ w - 1 → w ≤ h.length →
    ∃ h', shiftLoop w n i h = some h' ∧ h'.length = h.length := by
  intro n
  induction n with
  | zero => intro i h _ _; exact ⟨h, rfl, rfl⟩
  | succ n ih =>
    intro i h hi hw
    have h1 : w - 1 - (i + 1) < h.length := by omega
    have h2 : w - 1 - i < h.length := by omega
    obtain ⟨h', e, hl⟩ := ih (i + 1) (h.set (w - 1 - i) (h.get ⟨_, h1⟩)) (by omega)
      (by simpa using hw)
    refine ⟨h', ?_, by simpa using hl⟩
    rw [shiftLoop, List.get?_eq_get h1]
    simp only [h2, if_true]
    exact e

theorem zStep_isSome (w : ℕ) (h : List ℚ) (z : ℚ) (hw : w ≤ h.length) (hpos : 0 < h.length) :
    ∃ h' m, zStep w h z = some (h', m) ∧ h'.length = h.length := by
  obtain ⟨sh, e, hl⟩ := shiftLoop_isSome w (w - 1) 0 h (by omega) hw
  have hk : (w - 1) / 2 < (((sh.set 0 z).take w).insertionSort (· ≤ ·)
      ++ (sh.set 0 z).drop w).length := by
    simp only [List.length_append, List.length_insertionSort, List.length_take,
      List.length_drop, List.length_set]
    have := Nat.div_le_self (w - 1) 2
    omega
  refine ⟨sh.set 0 z, (((sh.set 0 z).take w).insertionSort (· ≤ ·)
      ++ (sh.set 0 z).drop w).get ⟨_, hk⟩, ?_, by simpa using hl⟩
  unfold zStep
  rw [e]
  simp only
  rw [if_neg (by omega), List.get?_eq_get hk]

theorem normGt_iff (p q : Point3d) (t : ℚ) :
    normGt p q t = true ↔
      (t : ℝ) < Real.sqrt (((p.x - q.x) ^ 2 + (p.y - q.y) ^ 2 + (p.z - q.z) ^ 2 : ℚ) : ℝ) := by
  unfold normGt
  rw [decide_eq_true_eq]
  by_cases ht : t < 0
  · have : (t : ℝ) < 0 := by exact_mod_cast ht
    exact ⟨fun _ => lt_of_lt_of_le this (Real.sqrt_nonneg _), fun _ => Or.inl ht⟩
  · have h0 : (0 : ℝ) ≤ t := by exact_mod_cast not_lt.mp ht
    rw [Real.lt_sqrt h0]
    constructor
    · rintro (h | h)
      · exact absurd h ht
      · exact_mod_cast h
    · intro h
      exact Or.inr (by exact_mod_cast h)



theorem followStep_other (env : Env) (M : Mat44) (s : Tracker) (it : PersonModel)
    (h : it.id ≠ s.targetId) :
    ∃ m, followStep env M s it = some (it, s, { goals := [], positions := [], markers := m }) := by
  unfold followStep
  simp only [if_neg h]
  exact ⟨_, rfl⟩

theorem followLoop_others (env : Env) (M : Mat44) (s : Tracker) :
    ∀ l : List PersonModel, (∀ p ∈ l, p.id ≠ s.targetId) →
      ∃ m, followLoop env M l s = some (l, s, { goals := [], positions := [], markers := m }) := by
  intro l
  induction l with
  | nil => intro _; exact ⟨[], rfl⟩
  | cons it rest ih =>
    intro h
    obtain ⟨m₁, e₁⟩ := followStep_other env M s it (h it (List.mem_cons_self _ _))
    obtain ⟨m₂, e₂⟩ := ih fun p hp => h p (List.mem_cons_of_mem _ hp)
    refine ⟨m₁ ++ m₂, ?_⟩
    rw [followLoop, e₁]
    simp only
    rw [e₂]
    simp [Effects.append]

theorem followLoop_target (env : Env) (M : Mat44) (s s₁ : Tracker) (it it' : PersonModel)
    (e₁ : Effects) (post : List PersonModel)
    (hstep : followStep env M s it = some (it', s₁, e₁)) (ht : s₁.targetId = s.targetId)
    (hpost : ∀ p ∈ post, p.id ≠ s.targetId) :
    ∀ pre : List PersonModel, (∀ p ∈ pre, p.id ≠ s.targetId) →
      ∃ m, followLoop env M (pre ++ it :: post) s
        = some (pre ++ it' :: post, s₁,
            { goals := e₁.goals, positions := e₁.positions, markers := m }) := by
  intro pre
  induction pre with
  | nil =>
    intro _
    obtain ⟨m₂, e₂⟩ := followLoop_others env M s₁ post (by rw [ht]; exact hpost)
    refine ⟨e₁.markers ++ m₂, ?_⟩
    rw [List.nil_append, followLoop, hstep]
    simp only
    rw [e₂]
    simp [Effects.append]
  | cons p pre ih =>
    intro h
    obtain ⟨m₁, e⟩ := followStep_other env M s p (h p (List.mem_cons_self _ _))
    obtain ⟨m₂, e₂⟩ := ih fun q hq => h q (List.mem_cons_of_mem _ hq)
    refine ⟨m₁ ++ m₂, ?_⟩
    rw [List.cons_append, followLoop, e]
    simp only
    rw [e₂]
    simp [Effects.append]

theorem deleteTrackers_selected (l : List PersonModel) (flag : Bool) (targetId : Int)
    (h : (deleteTrackers l flag targetId).2.1 = false) :
    (deleteTrackers l flag targetId).2.2.1 = targetId ∧
    (deleteTrackers l flag targetId).2.2.2 = [] := by
  by_cases hex : ∃ p ∈ l, p.toBeDeleted = true ∧ p.id = targetId
  · have := (deleteTrackers_with_target l flag targetId hex).1
    rw [h] at this
    exact absurd this (by simp)
  · exact (deleteTrackers_no_target l flag targetId hex).2

theorem stateAtSelection_goals (env : Env) (s : Tracker) (detection : DetectionList) (T : Mat44)
    (h : (stateAtSelection env s detection T).personNotChosenFlag = false) :
    (associateAndDelete env { s with last_image_header := detection.header } detection T).2 = [] ∧
    (stateAtSelection env s detection T).targetId = s.targetId :=
  ⟨(deleteTrackers_selected _ _ _ h).2, (deleteTrackers_selected _ _ _ h).1⟩

theorem trackingCallback_eq (env : Env) (s : Tracker) (detection : DetectionList) (T : Mat44)
    (hT : env.lookupTransform detection.header = some T) :
    trackingCallback env s detection =
      match selectionStep env (invert T) (stateAtSelection env s detection T)
          (smoothedList env s detection T) with
      | Option.none => Option.none
      | some (s', e) => some (s', { e with goals :=
          (associateAndDelete env { s with last_image_header := detection.header } detection T).2
            ++ e.goals }) := by
  simp only [trackingCallback, hT]
  rfl

theorem followStep_target (env : Env) (T : Mat44) (s : Tracker) (it : PersonModel)
    (z_history : List ℚ) (medianZ : ℚ) (hid : it.id = s.targetId)
    (hz : zStep s.median_window s.z_history (rawZ env s T it) = some (z_history, medianZ)) :
    ∃ s₁ e₁, followStep env (invert T) s it = some ({ it with lockedOnce := true }, s₁, e₁) ∧
      s₁.targetId = s.targetId ∧
      e₁.goals = (if normGt (fixationCandidate env it medianZ) s.lastFixationPoint
            s.gaze_threshold then
          [GazeGoal.FIXATION (fixationCandidate env it medianZ) s.fixation_tolerance]
        else []) := by
  unfold rawZ at hz
  by_cases hn : normGt (fixationCandidate env it medianZ) s.lastFixationPoint
      s.gaze_threshold = true
  · rw [if_pos hn]
    unfold fixationCandidate at hn
    unfold followStep
    simp only [if_pos hid, hz, if_pos hn]
    exact ⟨_, _, rfl, rfl, rfl⟩
  · rw [if_neg hn]
    unfold fixationCandidate at hn
    unfold followStep
    simp only [if_pos hid, hz, if_neg hn]
    exact ⟨_, _, rfl, rfl, rfl⟩

/-- C2. In a frame that reaches the selection step with a person chosen and with the
target's track in the smoothed list (the one track there with that identifier),
`trackingCallback` sends exactly one goal, the fixation of `(x, y, medianZ)` with
tolerance `fixation_tolerance`, when the Euclidean distance between
`(x, y, medianZ)` and `lastFixationPoint` is strictly greater than `gaze_threshold`,
and sends no goal otherwise.  Here `(x, y)` is the median-filtered position of the
track and `medianZ` the median computed by lines 426-432, inside the array. -/
theorem trackingCallback_fixation_goal (env : Env) (s : Tracker) (detection : DetectionList)
    (T : Mat44) (pre post : List PersonModel) (it : PersonModel)
    (hT : env.lookupTransform detection.header = some T)
    (hsel : (stateAtSelection env s detection T).personNotChosenFlag = false)
    (hlist : smoothedList env s detection T = pre ++ it :: post)
    (hid : it.id = (stateAtSelection env s detection T).targetId)
    (hpre : ∀ p ∈ pre, p.id ≠ it.id) (hpost : ∀ p ∈ post, p.id ≠ it.id)
    (hw : s.median_window ≤ s.z_history.length) (hlen : 0 < s.z_history.length) :
    ∃ z_history medianZ s' e,
      zStep s.median_window s.z_history (rawZ env s T it) = some (z_history, medianZ) ∧
      trackingCallback env s detection = some (s', e) ∧
      ((s.gaze_threshold : ℝ) <
          Real.sqrt ((((env.medianFilter it).x - s.lastFixationPoint.x) ^ 2
            + ((env.medianFilter it).y - s.lastFixationPoint.y) ^ 2
            + (medianZ - s.lastFixationPoint.z) ^ 2 : ℚ) : ℝ) →
        e.goals = [GazeGoal.FIXATION (fixationCandidate env it medianZ) s.fixation_tolerance]) ∧
      (¬ (s.gaze_threshold : ℝ) <
          Real.sqrt ((((env.medianFilter it).x - s.lastFixationPoint.x) ^ 2
            + ((env.medianFilter it).y - s.lastFixationPoint.y) ^ 2
            + (medianZ - s.lastFixationPoint.z) ^ 2 : ℚ) : ℝ) →
        e.goals = []) := by
  obtain ⟨z_history, medianZ, hz, -⟩ :=
    zStep_isSome s.median_window s.z_history (rawZ env s T it) hw hlen
  obtain ⟨hg, -⟩ := stateAtSelection_goals env s detection T hsel
  obtain ⟨s₁, e₁, hstep, ht, hgoals⟩ :=
    followStep_target env T (stateAtSelection env s detection T) it z_history medianZ hid hz
  obtain ⟨m, hloop⟩ := followLoop_target env (invert T) (stateAtSelection env s detection T) s₁ it
    _ e₁ post hstep ht (by rw [← hid]; exact hpost) pre (by rw [← hid]; exact hpre)
  have hcall : trackingCallback env s detection
      = some ({ s₁ with frame := s₁.frame + 1 },
          { goals := e₁.goals, positions := e₁.positions, markers := m }) := by
    rw [trackingCallback_eq env s detection T hT, hlist]
    unfold selectionStep
    simp only [hsel, hloop, hg]
    simp
  have hf₁ : (stateAtSelection env s detection T).lastFixationPoint = s.lastFixationPoint := rfl
  have hf₂ : (stateAtSelection env s detection T).gaze_threshold = s.gaze_threshold := rfl
  have hf₃ : (stateAtSelection env s detection T).fixation_tolerance = s.fixation_tolerance := rfl
  rw [hf₁, hf₂, hf₃] at hgoals
  have hiff := normGt_iff (fixationCandidate env it medianZ) s.lastFixationPoint s.gaze_threshold
  refine ⟨z_history, medianZ, _, _, hz, hcall, ?_, ?_⟩
  · intro hd
    exact hgoals.trans (if_pos (hiff.mpr hd))
  · intro hd
    exact hgoals.trans (if_neg fun h => hd (hiff.mp h))

/-- Witness of C2: the first frame of `exampleTracker`, whose target 1 is the only track
of the list. -/
theorem trackingCallback_fixation_goal_witness :
    ∃ z_history medianZ s' e,
      zStep exampleTracker.median_window exampleTracker.z_history
          (rawZ exampleEnv exampleTracker exampleT
            (ageTrack exampleTracker.personList examplePerson))
        = some (z_history, medianZ) ∧
      trackingCallback exampleEnv exampleTracker (emptyFrame 1) = some (s', e) ∧
      ((exampleTracker.gaze_threshold : ℝ) <
          Real.sqrt ((((exampleEnv.medianFilter
                (ageTrack exampleTracker.personList examplePerson)).x
              - exampleTracker.lastFixationPoint.x) ^ 2
            + ((exampleEnv.medianFilter (ageTrack exampleTracker.personList examplePerson)).y
              - exampleTracker.lastFixationPoint.y) ^ 2
            + (medianZ - exampleTracker.lastFixationPoint.z) ^ 2 : ℚ) : ℝ) →
        e.goals = [GazeGoal.FIXATION
          (fixationCandidate exampleEnv (ageTrack exampleTracker.personList examplePerson)
            medianZ) exampleTracker.fixation_tolerance]) ∧
      (¬ (exampleTracker.gaze_threshold : ℝ) <
          Real.sqrt ((((exampleEnv.medianFilter
                (ageTrack exampleTracker.personList examplePerson)).x
              - exampleTracker.lastFixationPoint.x) ^ 2
            + ((exampleEnv.medianFilter (ageTrack exampleTracker.personList examplePerson)).y
              - exampleTracker.lastFixationPoint.y) ^ 2
            + (medianZ - exampleTracker.lastFixationPoint.z) ^ 2 : ℚ) : ℝ) →
        e.goals = []) :=
  trackingCallback_fixation_goal exampleEnv exampleTracker (emptyFrame 1) exampleT []
    [] (ageTrack exampleTracker.personList examplePerson) rfl rfl rfl rfl (by simp) (by simp)
    (by decide) (by decide)

/-- C1, evaluated at a failing trace.  Three frames follow target 1, which stands at the
smoothed position (1, 0) with raw depth 3, from `lastFixationPoint = (1000, 1000, 1000)`
with window 5 and threshold 0.2.  The medians are 0.95, 0.95 and 3, so the candidates
are `c1 = c2 = (1, 0, 0.95)` and `c3 = (1, 0, 3)`: `c2` is within the threshold of
`c1` and `c3` is not.  The callback sends a goal for `c1`, a goal for `c2` and none
for `c3`, because line 457 stores the raw depth 3 in `lastFixationPoint`. -/
theorem trackingCallback_hysteresis_trace :
    normGt { x := 1, y := 0, z := 19 / 20 } { x := 1000, y := 1000, z := 1000 } (1 / 5) = true ∧
    normGt { x := 1, y := 0, z := 19 / 20 } { x := 1, y := 0, z := 19 / 20 } (1 / 5) = false ∧
    normGt { x := 1, y := 0, z := 3 } { x := 1, y := 0, z := 19 / 20 } (1 / 5) = true ∧
    (runFrames exampleEnv exampleTracker [emptyFrame 1, emptyFrame 2]).bind
        (fun r => (zStep r.1.median_window r.1.z_history 3).map fun m => m.2) = some 3 ∧
    (runFrames exampleEnv exampleTracker [emptyFrame 1, emptyFrame 2, emptyFrame 3]).map
        (fun r => (r.2.map fun e => e.goals, r.1.lastFixationPoint))
      = some ([[GazeGoal.FIXATION { x := 1, y := 0, z := 19 / 20 } (1 / 10)],
               [GazeGoal.FIXATION { x := 1, y := 0, z := 19 / 20 } (1 / 10)],
               []], { x := 1, y := 0, z := 3 }) := by
  decide!

theorem followStep_personList (env : Env) (M : Mat44) (s s₁ : Tracker) (it it' : PersonModel)
    (e : Effects) (h : followStep env M s it = some (it', s₁, e)) :
    s₁.personList = s.personList := by
  unfold followStep at h
  by_cases hid : it.id = s.targetId
  · simp only [if_pos hid] at h
    cases hz : zStep s.median_window s.z_history (env.getZ (env.getCenter it.rect)
        { x := (env.medianFilter it).x, y := (env.medianFilter it).y } M s.cameramodel) with
    | none => rw [hz] at h; simp at h
    | some r =>
      obtain ⟨z_history, medianZ⟩ := r
      rw [hz] at h
      simp only at h
      split_ifs at h
      · simp only [Option.some.injEq, Prod.mk.injEq] at h
        rw [← h.2.1]
      · simp only [Option.some.injEq, Prod.mk.injEq] at h
        rw [← h.2.1]
  · simp only [if_neg hid, Option.some.injEq, Prod.mk.injEq] at h
    rw [← h.2.1]

theorem followLoop_personList (env : Env) (M : Mat44) :
    ∀ (l l' : List PersonModel) (s s' : Tracker) (e : Effects),
      followLoop env M l s = some (l', s', e) → s'.personList = s.personList := by
  intro l
  induction l with
  | nil =>
    intro l' s s' e h
    simp only [followLoop, Option.some.injEq, Prod.mk.injEq] at h
    rw [← h.2.1]
  | cons it rest ih =>
    intro l' s s' e h
    rw [followLoop] at h
    cases h₁ : followStep env M s it with
    | none => rw [h₁] at h; simp at h
    | some r₁ =>
      obtain ⟨it', s₁, e₁⟩ := r₁
      rw [h₁] at h
      simp only at h
      cases h₂ : followLoop env M rest s₁ with
      | none => rw [h₂] at h; simp at h
      | some r₂ =>
        obtain ⟨rest', s₂, e₂⟩ := r₂
        rw [h₂] at h
        simp only [Option.some.injEq, Prod.mk.injEq] at h
        rw [← h.2.1, ih _ _ _ _ h₂, followStep_personList env M s s₁ it it' e₁ h₁]

theorem trackingCallback_registry (env : Env) (s s' : Tracker) (detection : DetectionList)
    (T : Mat44) (e : Effects) (hT : env.lookupTransform detection.header = some T)
    (h : trackingCallback env s detection = some (s', e)) :
    s'.personList = (stateAtSelection env s detection T).personList := by
  rw [trackingCallback_eq env s detection T hT] at h
  unfold selectionStep at h
  split_ifs at h with hsel
  · cases hn : nearestLoop (invert T) (smoothedList env s detection T) (100000000000000, 0)
        ((stateAtSelection env s detection T).personNotChosenFlag,
          (stateAtSelection env s detection T).targetId) with
    | none => rw [hn] at h; simp at h
    | some r =>
      rw [hn] at h
      simp only [Option.some.injEq, Prod.mk.injEq] at h
      rw [← h.1]
  · cases hf : followLoop env (invert T) (smoothedList env s detection T)
        (stateAtSelection env s detection T) with
    | none => rw [hf] at h; simp at h
    | some r =>
      obtain ⟨l', s₁, e₁⟩ := r
      rw [hf] at h
      simp only [Option.some.injEq, Prod.mk.injEq] at h
      rw [← h.1]
      exact followLoop_personList env (invert T) _ l' _ s₁ e₁ hf

/-- C7, evaluated at a failing frame.  Target 1 is chosen and is the one track of the
list; the loop sets `lockedOnce` on the element of the local vector `list`, and the
track 1 of the registry still has `lockedOnce = false` when the callback returns. -/
theorem trackingCallback_lock_on_copy :
    (followLoop exampleEnv (invert exampleT)
        (smoothedList exampleEnv exampleTracker (emptyFrame 1) exampleT)
        (stateAtSelection exampleEnv exampleTracker (emptyFrame 1) exampleT)).map
        (fun r => r.1.map fun p => (p.id, p.lockedOnce)) = some [(1, true)] ∧
    (trackingCallback exampleEnv exampleTracker (emptyFrame 1)).map
        (fun r => (r.1.personNotChosenFlag, r.1.targetId,
          r.1.personList.personList.map fun p => (p.id, p.lockedOnce)))
      = some (false, 1, [(1, false)]) := by
  decide!

/-! ## Theorems: the branch in which no person is chosen -/

theorem invertRT_square {n : ℕ} (M : Matrix (Fin n) (Fin n) ℚ) :
    invertRT M = some (invert M) := by
  unfold invertRT
  rw [dif_pos rfl]
  rfl

theorem invertRT_sliceRT (M : Mat44) : invertRT (sliceRT M) = Option.none :=
  dif_neg (by decide)

theorem nearestStep_none (M : Mat44) (it : PersonModel) (c : ℚ × Int) :
    nearestStep M it c = Option.none := by
  unfold nearestStep
  rw [invertRT_sliceRT]

theorem nearestLoop_cons (M : Mat44) (it : PersonModel) (rest : List PersonModel)
    (c : ℚ × Int) (r : Bool × Int) : nearestLoop M (it :: rest) c r = Option.none := by
  rw [nearestLoop, nearestStep_none]

/-- A frame that reaches the selection step with no person chosen.  The loop of lines
302-330 ends in the exception of line 307 at the first track of the list, so the
callback returns only when the list is empty; it then leaves the tracker as it was
at that step, apart from the frame counter, and sends what the deletion loop sent. -/
theorem trackingCallback_unchosen_frame (env : Env) (s : Tracker) (detection : DetectionList)
    (T : Mat44) (hT : env.lookupTransform detection.header = some T)
    (hsel : (stateAtSelection env s detection T).personNotChosenFlag = true) :
    (smoothedList env s detection T ≠ [] → trackingCallback env s detection = Option.none) ∧
    (smoothedList env s detection T = [] →
      ∃ s' e, trackingCallback env s detection = some (s', e) ∧
        s'.personNotChosenFlag = true ∧
        s'.targetId = (stateAtSelection env s detection T).targetId ∧
        e.goals
          = (associateAndDelete env { s with last_image_header := detection.header }
              detection T).2 ∧
        e.positions = [] ∧ e.markers = [] ∧
        s'.lastFixationPoint = s.lastFixationPoint ∧ s'.z_history = s.z_history ∧
        s'.personList = (stateAtSelection env s detection T).personList) := by
  constructor
  · intro hne
    obtain ⟨it, rest, hl⟩ := List.exists_cons_of_ne_nil hne
    rw [trackingCallback_eq env s detection T hT, hl]
    unfold selectionStep
    simp only [hsel, if_true, nearestLoop_cons]
  · intro hnil
    have hcall : trackingCallback env s detection
        = some ({ stateAtSelection env s detection T with
              personNotChosenFlag := (stateAtSelection env s detection T).personNotChosenFlag,
              targetId := (stateAtSelection env s detection T).targetId,
              frame := (stateAtSelection env s detection T).frame + 1 },
            { goals := (associateAndDelete env { s with last_image_header := detection.header }
                detection T).2,
              positions := [], markers := [] }) := by
      rw [trackingCallback_eq env s detection T hT, hnil]
      unfold selectionStep
      rw [if_pos hsel]
      simp [nearestLoop, Effects.none, unchosenMarkers]
    exact ⟨_, _, hcall, hsel, rfl, rfl, rfl, rfl, rfl, rfl, rfl⟩

theorem trackingCallback_unchosen_iff (env : Env) (s : Tracker) (detection : DetectionList)
    (T : Mat44) (hT : env.lookupTransform detection.header = some T)
    (hsel : (stateAtSelection env s detection T).personNotChosenFlag = true) :
    (trackingCallback env s detection).isSome = true ↔ smoothedList env s detection T = [] := by
  obtain ⟨hraise, hret⟩ := trackingCallback_unchosen_frame env s detection T hT hsel
  constructor
  · intro h
    by_contra hne
    rw [hraise hne] at h
    simp at h
  · intro hnil
    obtain ⟨s', e, hcall, -⟩ := hret hnil
    rw [hcall]
    rfl

/-- C6, at every frame the claim is about.  A frame that reaches the selection step
with no person chosen and a smoothed list that is not empty does not end with a
person chosen: line 307 hands the 3x4 slice `RT` to `invert`, whose LU method
requires a square matrix, and the callback ends in that exception at the first track
of the list, before any depth is compared. -/
theorem trackingCallback_selection_raises (env : Env) (s : Tracker)
    (detection : DetectionList) (T : Mat44)
    (hT : env.lookupTransform detection.header = some T)
    (hsel : (stateAtSelection env s detection T).personNotChosenFlag = true)
    (hne : smoothedList env s detection T ≠ []) :
    invertRT (sliceRT (invert T)) = Option.none ∧
    (∀ (it : PersonModel) (closest : ℚ × Int),
      nearestStep (invert T) it closest = Option.none) ∧
    trackingCallback env s detection = Option.none :=
  ⟨invertRT_sliceRT _, fun it closest => nearestStep_none _ it closest,
    (trackingCallback_unchosen_frame env s detection T hT hsel).1 hne⟩

/-- C6 at a failing frame: no person is chosen, the list holds track 1 at the world
point (-5, 0) and track 2 at (1, 0), and the callback does not return. -/
theorem trackingCallback_selection_raises_witness :
    (stateAtSelection rejectingEnv twoPersonTracker (oneDetectionFrame 1)
      exampleT).personNotChosenFlag = true ∧
    (smoothedList rejectingEnv twoPersonTracker (oneDetectionFrame 1) exampleT).map
        (fun p => (p.id, p.position))
      = [(1, { x := -5, y := 0 }), (2, { x := 1, y := 0 })] ∧
    trackingCallback rejectingEnv twoPersonTracker (oneDetectionFrame 1) = Option.none :=
  ⟨by decide!, by decide!,
    (trackingCallback_selection_raises rejectingEnv twoPersonTracker (oneDetectionFrame 1)
      exampleT rfl (by decide!) (by decide!)).2.2⟩

/-! ## Theorems: pruning, the depth history, the projection formula, the position stream -/

theorem deleteTrackers_eq_filter (l : List PersonModel) (flag : Bool) (targetId : Int) :
    (deleteTrackers l flag targetId).1 = l.filter fun p => !p.toBeDeleted := by
  induction l generalizing flag targetId with
  | nil => rfl
  | cons it rest ih =>
    unfold deleteTrackers
    split_ifs with h1 h2
    · simp [h1, ih]
    · simp [h1, ih]
    · simp [h1, ih]

/-- C17. Pruning: the deletion loop of `trackingCallback` returns (it is a total
function of the registry) and leaves exactly the tracks whose `toBeDeleted` flag was
false, in their original order; no track with `toBeDeleted = true` remains. -/
theorem deleteTrackers_prunes (l : List PersonModel) (personNotChosenFlag : Bool)
    (targetId : Int) :
    (deleteTrackers l personNotChosenFlag targetId).1 = l.filter (fun p => !p.toBeDeleted) ∧
    ∀ p ∈ (deleteTrackers l personNotChosenFlag targetId).1, p.toBeDeleted = false := by
  refine ⟨deleteTrackers_eq_filter l personNotChosenFlag targetId, ?_⟩
  intro p hp
  rw [deleteTrackers_eq_filter, List.mem_filter] at hp
  simpa using hp.2

/-- Witness of C17: of three tracks the marked one, which is the target, is erased. -/
theorem deleteTrackers_prunes_witness :
    (deleteTrackers [examplePerson, { examplePerson with id := 2, toBeDeleted := true },
        { examplePerson with id := 3 }] false 2).1
      = [examplePerson, { examplePerson with id := 3 }] := by
  rw [(deleteTrackers_prunes _ false 2).1]
  rfl

theorem shiftLoop_getElem (w : ℕ) : ∀ (n i : ℕ) (h h' : List ℚ), i + n ≤ w - 1 →
    shiftLoop w n i h = some h' →
    h'.length = h.length ∧
    ∀ k, h'[k]? = if w - 1 - (i + n) < k ∧ k ≤ w - 1 - i then h[k - 1]? else h[k]? := by
  intro n
  induction n with
  | zero =>
    intro i h h' _ e
    simp only [shiftLoop, Option.some.injEq] at e
    subst e
    refine ⟨rfl, fun k => ?_⟩
    have : ¬ (w - 1 - (i + 0) < k ∧ k ≤ w - 1 - i) := by omega
    rw [if_neg this]
  | succ n ih =>
    intro i h h' hi e
    rw [shiftLoop] at e
    cases hv : h.get? (w - 1 - (i + 1)) with
    | none => rw [hv] at e; simp at e
    | some v =>
      rw [hv] at e
      simp only at e
      split_ifs at e with hlt
      obtain ⟨hl, hk⟩ := ih (i + 1) _ h' (by omega) e
      refine ⟨by simpa using hl, fun k => ?_⟩
      rw [hk k]
      rw [List.get?_eq_getElem?] at hv
      by_cases c1 : w - 1 - (i + 1 + n) < k ∧ k ≤ w - 1 - (i + 1)
      · have c1' : w - 1 - (i + (n + 1)) < k ∧ k ≤ w - 1 - i := by omega
        have hne : w - 1 - i ≠ k - 1 := by omega
        rw [if_pos c1, if_pos c1', List.getElem?_set_ne hne]
      · rw [if_neg c1]
        by_cases c2 : k = w - 1 - i
        · have c2' : w - 1 - (i + (n + 1)) < k ∧ k ≤ w - 1 - i := by omega
          have hidx : k - 1 = w - 1 - (i + 1) := by omega
          rw [if_pos c2', hidx, hv, c2, List.getElem?_set_self hlt]
        · have c2' : ¬ (w - 1 - (i + (n + 1)) < k ∧ k ≤ w - 1 - i) := by omega
          have hne : w - 1 - i ≠ k := fun h => c2 h.symm
          rw [if_neg c2', List.getElem?_set_ne hne]

/-- The array after lines 426-428, as a list: `z` in front, the first
`median_window - 1` old entries behind it, the entries from `median_window` on
in place. -/
theorem shift_insert_eq (w : ℕ) (h sh : List ℚ) (z : ℚ) (hw1 : 1 ≤ w) (hw : w ≤ h.length)
    (e : shiftLoop w (w - 1) 0 h = some sh) :
    sh.set 0 z = z :: (h.take (w - 1) ++ h.drop w) := by
  obtain ⟨hl, hk⟩ := shiftLoop_getElem w (w - 1) 0 h sh (by omega) e
  apply List.ext_getElem?
  intro k
  cases k with
  | zero =>
    rw [List.getElem?_set_self (by omega)]
    simp
  | succ k =>
    rw [List.getElem?_set_ne (by omega), hk (k + 1), List.getElem?_cons_succ,
      List.getElem?_append, List.getElem?_take, List.getElem?_drop, List.length_take]
    have hmin : min (w - 1) h.length = w - 1 := by omega
    rw [hmin]
    by_cases c : k < w - 1
    · have c' : w - 1 - (0 + (w - 1)) < k + 1 ∧ k + 1 ≤ w - 1 - 0 := by omega
      rw [if_pos c', if_pos c, if_pos c]
      rfl
    · have c' : ¬ (w - 1 - (0 + (w - 1)) < k + 1 ∧ k + 1 ≤ w - 1 - 0) := by omega
      have hidx : w + (k - (w - 1)) = k + 1 := by omega
      rw [if_neg c', if_neg c, hidx]

theorem zStep_eq (w : ℕ) (h : List ℚ) (z : ℚ) (hw1 : 1 ≤ w) (hw : w ≤ h.length) :
    ∃ m, zStep w h z = some (z :: (h.take (w - 1) ++ h.drop w), m) ∧
      ((z :: h.take (w - 1)).insertionSort (· ≤ ·))[(w - 1) / 2]? = some m := by
  obtain ⟨sh, e, hl⟩ := shiftLoop_isSome w (w - 1) 0 h (by omega) hw
  have hset := shift_insert_eq w h sh z hw1 hw e
  have hlen : (h.take (w - 1)).length = w - 1 := by
    rw [List.length_take]; omega
  have htake : (z :: (h.take (w - 1) ++ h.drop w)).take w = z :: h.take (w - 1) := by
    obtain ⟨v, rfl⟩ : ∃ v, w = v + 1 := ⟨w - 1, by omega⟩
    rw [List.take_succ_cons, List.take_left' (by simpa using hlen)]
  have hdrop : (z :: (h.take (w - 1) ++ h.drop w)).drop w = h.drop w := by
    obtain ⟨v, rfl⟩ : ∃ v, w = v + 1 := ⟨w - 1, by omega⟩
    rw [List.drop_succ_cons, List.drop_left' (by simpa using hlen)]
  have hmid : (w - 1) / 2 < ((z :: h.take (w - 1)).insertionSort (· ≤ ·)).length := by
    rw [List.length_insertionSort, List.length_cons, hlen]
    have := Nat.div_le_self (w - 1) 2
    omega
  refine ⟨((z :: h.take (w - 1)).insertionSort (· ≤ ·))[(w - 1) / 2], ?_,
    List.getElem?_eq_getElem hmid⟩
  unfold zStep
  rw [e]
  simp only
  rw [if_neg (by omega), hset, htake, hdrop, List.get?_eq_getElem?,
    List.getElem?_append_left hmid, List.getElem?_eq_getElem hmid]

theorem sorted_mem_iff (l : List ℚ) (x : ℚ) : x ∈ l.insertionSort (· ≤ ·) ↔ x ∈ l :=
  (List.perm_insertionSort (· ≤ ·) l).mem_iff

/-- C15. Shift-and-insert of the depth history: for a window `w` with `1 ≤ w` that fits
the array, the update of lines 426-428 with the raw depth `z` returns, and in the
new array entry 0 is `z`, entry `k` is the old entry `k - 1` for `1 ≤ k ≤ w - 1` (the
old entry `w - 1` is evicted) and every entry at an index `≥ w` is unchanged. -/
theorem zStep_shift_insert (w : ℕ) (h : List ℚ) (z : ℚ) (hw1 : 1 ≤ w) (hw : w ≤ h.length) :
    ∃ h' m, zStep w h z = some (h', m) ∧ h'.length = h.length ∧ h'[0]? = some z ∧
      (∀ k, 1 ≤ k → k ≤ w - 1 → h'[k]? = h[k - 1]?) ∧ (∀ k, w ≤ k → h'[k]? = h[k]?) := by
  obtain ⟨m, e, -⟩ := zStep_eq w h z hw1 hw
  have hlen : (h.take (w - 1)).length = w - 1 := by
    rw [List.length_take]; omega
  refine ⟨_, m, e, ?_, by simp, ?_, ?_⟩
  · rw [List.length_cons, List.length_append, hlen, List.length_drop]; omega
  · intro k hk1 hk2
    obtain ⟨j, rfl⟩ : ∃ j, k = j + 1 := ⟨k - 1, by omega⟩
    rw [List.getElem?_cons_succ, List.getElem?_append_left (by omega), List.getElem?_take,
      if_pos (by omega)]
    rfl
  · intro k hk
    obtain ⟨j, rfl⟩ : ∃ j, k = j + 1 := ⟨k - 1, by omega⟩
    rw [List.getElem?_cons_succ, List.getElem?_append, hlen, if_neg (by omega),
      List.getElem?_drop]
    congr 1
    omega

/-- Witness of C15: the default window 5 on the array of `exampleTracker`. -/
theorem zStep_shift_insert_witness :
    ∃ h' m, zStep 5 exampleTracker.z_history 3 = some (h', m) ∧
      h'.length = exampleTracker.z_history.length ∧ h'[0]? = some 3 ∧
      (∀ k, 1 ≤ k → k ≤ 5 - 1 → h'[k]? = exampleTracker.z_history[k - 1]?) ∧
      (∀ k, 5 ≤ k → h'[k]? = exampleTracker.z_history[k]?) :=
  zStep_shift_insert 5 exampleTracker.z_history 3 (by decide) (by decide)

/-- C16. Depth median: for a window `w` with `1 ≤ w` that fits the array, `medianZ` is
the entry at index `floor((w - 1) / 2)` of the ascending sort of the first `w`
entries of the updated history; it is one of these entries, lies between any lower
and upper bound of them (so between their minimum and maximum), does not depend
on the entries at indices `≥ w`, and the history that is kept is the shifted array,
not the sorted copy. -/
theorem zStep_median (w : ℕ) (h : List ℚ) (z : ℚ) (hw1 : 1 ≤ w) (hw : w ≤ h.length) :
    ∃ h' m, zStep w h z = some (h', m) ∧
      ((h'.take w).insertionSort (· ≤ ·))[(w - 1) / 2]? = some m ∧
      m ∈ h'.take w ∧
      (∀ lo, (∀ x ∈ h'.take w, lo ≤ x) → lo ≤ m) ∧
      (∀ hi, (∀ x ∈ h'.take w, x ≤ hi) → m ≤ hi) ∧
      h' = z :: (h.take (w - 1) ++ h.drop w) ∧
      (∀ h₂ : List ℚ, w ≤ h₂.length → h₂.take w = h.take w →
        (zStep w h₂ z).map Prod.snd = some m) := by
  obtain ⟨m, e, hm⟩ := zStep_eq w h z hw1 hw
  have hlen : (h.take (w - 1)).length = w - 1 := by
    rw [List.length_take]; omega
  have htake : (z :: (h.take (w - 1) ++ h.drop w)).take w = z :: h.take (w - 1) := by
    obtain ⟨v, rfl⟩ : ∃ v, w = v + 1 := ⟨w - 1, by omega⟩
    rw [List.take_succ_cons, List.take_left' (by simpa using hlen)]
  have hmem : m ∈ z :: h.take (w - 1) :=
    (sorted_mem_iff _ m).mp (List.mem_iff_getElem?.mpr ⟨_, hm⟩)
  refine ⟨_, m, e, ?_, ?_, ?_, ?_, rfl, ?_⟩
  · rw [htake]; exact hm
  · rw [htake]; exact hmem
  · intro lo hlo
    rw [htake] at hlo
    exact hlo m hmem
  · intro hi hhi
    rw [htake] at hhi
    exact hhi m hmem
  · intro h₂ hw₂ heq
    obtain ⟨m₂, e₂, hm₂⟩ := zStep_eq w h₂ z hw1 hw₂
    have hpre : h₂.take (w - 1) = h.take (w - 1) := by
      have := congrArg (List.take (w - 1)) heq
      rwa [List.take_take, List.take_take, min_eq_left (by omega)] at this
    rw [hpre, hm] at hm₂
    rw [e₂]
    simpa using hm₂.symm

/-- Witness of C16: the default window 5 on the array of `exampleTracker`. -/
theorem zStep_median_witness :
    ∃ h' m, zStep 5 exampleTracker.z_history 3 = some (h', m) ∧
      ((h'.take 5).insertionSort (· ≤ ·))[(5 - 1) / 2]? = some m ∧
      m ∈ h'.take 5 ∧
      (∀ lo, (∀ x ∈ h'.take 5, lo ≤ x) → lo ≤ m) ∧
      (∀ hi, (∀ x ∈ h'.take 5, x ≤ hi) → m ≤ hi) ∧
      h' = 3 :: (exampleTracker.z_history.take (5 - 1) ++ exampleTracker.z_history.drop 5) ∧
      (∀ h₂ : List ℚ, 5 ≤ h₂.length → h₂.take 5 = exampleTracker.z_history.take 5 →
        (zStep 5 h₂ 3).map Prod.snd = some m) :=
  zStep_median 5 exampleTracker.z_history 3 (by decide) (by decide)

theorem initLoop_getElem : ∀ (n i : ℕ) (h : List ℚ), i + n ≤ h.length →
    ∃ h', initLoop n i h = some h' ∧ h'.length = h.length ∧
      ∀ k, h'[k]? = if i ≤ k ∧ k < i + n then some (19 / 20) else h[k]? := by
  intro n
  induction n with
  | zero =>
    intro i h _
    refine ⟨h, rfl, rfl, fun k => ?_⟩
    have : ¬ (i ≤ k ∧ k < i + 0) := by omega
    rw [if_neg this]
  | succ n ih =>
    intro i h hi
    obtain ⟨h', e, hl, hk⟩ := ih (i + 1) (h.set i (19 / 20)) (by simpa using (by omega : i + 1 + n ≤ h.length))
    refine ⟨h', ?_, by simpa using hl, fun k => ?_⟩
    · rw [initLoop, if_pos (by omega)]
      exact e
    · rw [hk k]
      by_cases c : i + 1 ≤ k ∧ k < i + 1 + n
      · have c' : i ≤ k ∧ k < i + (n + 1) := by omega
        rw [if_pos c, if_pos c']
      · rw [if_neg c]
        by_cases c2 : k = i
        · have c' : i ≤ k ∧ k < i + (n + 1) := by omega
          rw [if_pos c', c2, List.getElem?_set_self (by omega)]
        · have c' : ¬ (i ≤ k ∧ k < i + (n + 1)) := by omega
          have hne : i ≠ k := fun h => c2 h.symm
          rw [if_neg c', List.getElem?_set_ne hne]

theorem median_of_majority (c : ℚ) (W : List ℚ) (hW : 1 ≤ W.length)
    (hc : W.countP (fun x => decide (x ≠ c)) ≤ (W.length - 1) / 2) :
    (W.insertionSort (· ≤ ·))[(W.length - 1) / 2]? = some c := by
  set S := W.insertionSort (· ≤ ·) with hS
  set mid := (W.length - 1) / 2 with hmid
  have hlenS : S.length = W.length := List.length_insertionSort _ _
  have hsorted : S.Sorted (· ≤ ·) := List.sorted_insertionSort _ _
  have hcount : S.countP (fun x => decide (x ≠ c)) ≤ mid := by
    rw [(List.perm_insertionSort (· ≤ ·) W).countP_eq]
    exact hc
  have hmidlt : mid < S.length := by
    have := Nat.div_le_self (W.length - 1) 2
    omega
  have h2 : 2 * mid ≤ W.length - 1 := by
    have := Nat.div_mul_le_self (W.length - 1) 2
    omega
  rw [List.getElem?_eq_getElem hmidlt]
  congr 1
  by_contra hne
  have hsplit : S.countP (fun x => decide (x ≠ c))
      = (S.take mid).countP (fun x => decide (x ≠ c))
        + (S.drop mid).countP (fun x => decide (x ≠ c)) := by
    rw [← List.countP_append, List.take_append_drop]
  have hdrop : S.drop mid = S[mid] :: S.drop (mid + 1) := List.drop_eq_getElem_cons hmidlt
  have hpair : ∀ a ∈ S.take mid, ∀ b ∈ S.drop mid, a ≤ b := by
    have := hsorted
    rw [← List.take_append_drop mid S] at this
    exact (List.pairwise_append.mp this).2.2
  rcases lt_or_gt_of_ne hne with hlt | hgt
  · have htake : (S.take mid).countP (fun x => decide (x ≠ c)) = (S.take mid).length := by
      rw [List.countP_eq_length]
      intro a ha
      have : a ≤ S[mid] := hpair a ha _ (by rw [hdrop]; exact List.mem_cons_self _ _)
      simpa using ne_of_lt (lt_of_le_of_lt this hlt)
    have hd : 1 ≤ (S.drop mid).countP (fun x => decide (x ≠ c)) := by
      rw [hdrop, List.countP_cons]
      simp [hne]
    rw [List.length_take] at htake
    omega
  · have hd : (S.drop mid).countP (fun x => decide (x ≠ c)) = (S.drop mid).length := by
      rw [List.countP_eq_length]
      intro a ha
      have hsd : (S.drop mid).Sorted (· ≤ ·) := by
        have := hsorted
        rw [← List.take_append_drop mid S] at this
        exact (List.pairwise_append.mp this).2.1
      have : S[mid] ≤ a := by
        rw [hdrop] at ha hsd
        rcases List.mem_cons.mp ha with ha | ha
        · rw [ha]
        · exact List.rel_of_sorted_cons hsd a ha
      simpa using ne_of_gt (lt_of_lt_of_le hgt this)
    rw [List.length_drop] at hd
    omega

theorem zRun_warm (w : ℕ) (c : ℚ) (hw1 : 1 ≤ w) :
    ∀ (zs h : List ℚ), w ≤ h.length →
      (h.take w).countP (fun x => decide (x ≠ c)) + zs.length ≤ (w - 1) / 2 →
      ∃ h', zRun w h zs = some (h', List.replicate zs.length c) := by
  intro zs
  induction zs with
  | nil => intro h _ _; exact ⟨h, rfl⟩
  | cons z zs ih =>
    intro h hw hc
    obtain ⟨m, e, hm⟩ := zStep_eq w h z hw1 hw
    have hlen : (h.take (w - 1)).length = w - 1 := by
      rw [List.length_take]; omega
    have htake : (z :: (h.take (w - 1) ++ h.drop w)).take w = z :: h.take (w - 1) := by
      obtain ⟨v, rfl⟩ : ∃ v, w = v + 1 := ⟨w - 1, by omega⟩
      rw [List.take_succ_cons, List.take_left' (by simpa using hlen)]
    have hsub : (h.take (w - 1)).countP (fun x => decide (x ≠ c))
        ≤ (h.take w).countP (fun x => decide (x ≠ c)) := by
      apply List.Sublist.countP_le
      have : h.take (w - 1) = (h.take w).take (w - 1) := by
        rw [List.take_take, min_eq_left (by omega)]
      rw [this]
      exact List.take_sublist _ _
    have hcnt : (z :: h.take (w - 1)).countP (fun x => decide (x ≠ c))
        ≤ (h.take w).countP (fun x => decide (x ≠ c)) + 1 := by
      rw [List.countP_cons]
      split_ifs <;> omega
    have hlen' : (z :: (h.take (w - 1) ++ h.drop w)).length = h.length := by
      rw [List.length_cons, List.length_append, hlen, List.length_drop]; omega
    have hWlen : (z :: h.take (w - 1)).length = w := by
      rw [List.length_cons, hlen]; omega
    have hmed := median_of_majority c (z :: h.take (w - 1)) (by omega)
      (by rw [hWlen]; simp only [List.length_cons] at hc; omega)
    rw [hWlen, hm] at hmed
    obtain ⟨h', e'⟩ := ih (z :: (h.take (w - 1) ++ h.drop w)) (by omega)
      (by rw [htake]; simp only [List.length_cons] at hc; omega)
    refine ⟨h', ?_⟩
    rw [zRun, e]
    simp only
    rw [e']
    simp only [Option.some.injEq] at hmed
    rw [hmed]
    rfl

/-- C20. Depth-median warm-up: when the constructor has written 0.95 into the first `w`
entries of `z_history` (`1 ≤ w`, `w` within the array), every `medianZ` computed in
the first `floor((w - 1) / 2)` updates is 0.95, whatever the raw depths `zs`. -/
theorem zRun_warm_up (w : ℕ) (z_garbage zs : List ℚ) (hw1 : 1 ≤ w) (hw : w ≤ z_garbage.length)
    (hzs : zs.length ≤ (w - 1) / 2) :
    ∃ z_history last, initLoop w 0 z_garbage = some z_history ∧
      z_history.take w = List.replicate w (19 / 20) ∧
      zRun w z_history zs = some (last, List.replicate zs.length (19 / 20)) := by
  obtain ⟨h0, e, hl, hk⟩ := initLoop_getElem w 0 z_garbage (by omega)
  have htake : h0.take w = List.replicate w (19 / 20) := by
    apply List.ext_getElem?
    intro k
    rw [List.getElem?_take, List.getElem?_replicate, hk k]
    by_cases c : k < w
    · rw [if_pos c, if_pos c, if_pos (by omega)]
    · rw [if_neg c, if_neg c]
  have hcount : (h0.take w).countP (fun x => decide (x ≠ (19 / 20 : ℚ))) = 0 := by
    rw [htake, List.countP_eq_zero]
    intro a ha
    rw [List.eq_of_mem_replicate ha]
    simp
  obtain ⟨last, hrun⟩ := zRun_warm w (19 / 20) hw1 zs h0 (by omega) (by omega)
  exact ⟨h0, last, e, htake, hrun⟩

/-- Witness of C20: window 5 and the raw depths 3 and 7 in the first two updates. -/
theorem zRun_warm_up_witness :
    ∃ z_history last, initLoop 5 0 (List.replicate 100 0) = some z_history ∧
      z_history.take 5 = List.replicate 5 (19 / 20) ∧
      zRun 5 z_history [3, 7] = some (last, List.replicate [(3 : ℚ), 7].length (19 / 20)) :=
  zRun_warm_up 5 (List.replicate 100 0) [3, 7] (by decide) (by decide) (by decide)

theorem homography_eq_planarH (T : Mat44) : homography T = planarH T := by
  ext i j
  fin_cases i <;> fin_cases j <;> rfl

/-- C18. Ground projection formula: `calculatePointsOnWorldFrame` returns as many points
as it is given image points, in input order, the point for `(u, v)` being
`(h0/h2, h1/h2, 0)` with `h = H⁻¹ * (K⁻¹ * (u, v, 1))`, where `H` consists of rows 0-2 of
columns 0, 1 and 3 of the transform; every returned point has `z = 0`.  (The
inverse of a singular matrix is the zero matrix, as `cv::invert` leaves it.) -/
theorem calculatePointsOnWorldFrame_formula (K : Mat33) (T : Mat44)
    (imagePoints : List Point2d) :
    ((cameraModel.new K).calculatePointsOnWorldFrame imagePoints T).length
      = imagePoints.length ∧
    (cameraModel.new K).calculatePointsOnWorldFrame imagePoints T
      = imagePoints.map (fun p =>
          { x := fdiv (((planarH T)⁻¹.mulVec (K⁻¹.mulVec ![p.x, p.y, 1])) 0)
                   (((planarH T)⁻¹.mulVec (K⁻¹.mulVec ![p.x, p.y, 1])) 2),
            y := fdiv (((planarH T)⁻¹.mulVec (K⁻¹.mulVec ![p.x, p.y, 1])) 1)
                   (((planarH T)⁻¹.mulVec (K⁻¹.mulVec ![p.x, p.y, 1])) 2),
            z := some 0 }) ∧
    ∀ q ∈ (cameraModel.new K).calculatePointsOnWorldFrame imagePoints T, q.z = some 0 := by
  refine ⟨by simp [cameraModel.calculatePointsOnWorldFrame], ?_, ?_⟩
  · unfold cameraModel.calculatePointsOnWorldFrame homogeneousP cameraModel.new
    simp only [invert_eq_inv, homography_eq_planarH]
  · intro q hq
    unfold cameraModel.calculatePointsOnWorldFrame at hq
    rw [List.mem_map] at hq
    obtain ⟨p, -, rfl⟩ := hq
    rfl

/-- Witness of C18: two image points under `exampleK` and `exampleT`. -/
theorem calculatePointsOnWorldFrame_formula_witness :
    ((cameraModel.new exampleK).calculatePointsOnWorldFrame
        [{ x := 5, y := 7 }, { x := 1, y := 1 }] exampleT).length = 2 :=
  (calculatePointsOnWorldFrame_formula exampleK exampleT
    [{ x := 5, y := 7 }, { x := 1, y := 1 }]).1

theorem followStep_target_full (env : Env) (T : Mat44) (s : Tracker) (it : PersonModel)
    (z_history : List ℚ) (medianZ : ℚ) (hid : it.id = s.targetId)
    (hz : zStep s.median_window s.z_history (rawZ env s T it) = some (z_history, medianZ)) :
    ∃ s₁ e₁, followStep env (invert T) s it = some ({ it with lockedOnce := true }, s₁, e₁) ∧
      s₁.targetId = s.targetId ∧ s₁.personNotChosenFlag = s.personNotChosenFlag ∧
      s₁.z_history = z_history ∧
      s₁.lastFixationPoint = (if normGt (fixationCandidate env it medianZ) s.lastFixationPoint
            s.gaze_threshold then fixationCandidate env it (rawZ env s T it)
          else s.lastFixationPoint) ∧
      e₁.goals = (if normGt (fixationCandidate env it medianZ) s.lastFixationPoint
            s.gaze_threshold then
          [GazeGoal.FIXATION (fixationCandidate env it medianZ) s.fixation_tolerance]
        else []) ∧
      e₁.positions = [fixationCandidate env it 0] := by
  unfold rawZ at hz
  by_cases hn : normGt (fixationCandidate env it medianZ) s.lastFixationPoint
      s.gaze_threshold = true
  · rw [if_pos hn, if_pos hn]
    unfold fixationCandidate at hn
    unfold followStep
    simp only [if_pos hid, hz, if_pos hn]
    exact ⟨_, _, rfl, rfl, rfl, rfl, rfl, rfl, rfl⟩
  · rw [if_neg hn, if_neg hn]
    unfold fixationCandidate at hn
    unfold followStep
    simp only [if_pos hid, hz, if_neg hn]
    exact ⟨_, _, rfl, rfl, rfl, rfl, rfl, rfl, rfl⟩

/-- A frame that reaches the selection step with a person chosen and the target as
the one track of the list with its identifier: the tracker and what is sent. -/
theorem trackingCallback_chosen_frame (env : Env) (s : Tracker) (detection : DetectionList)
    (T : Mat44) (pre post : List PersonModel) (it : PersonModel)
    (hT : env.lookupTransform detection.header = some T)
    (hsel : (stateAtSelection env s detection T).personNotChosenFlag = false)
    (hlist : smoothedList env s detection T = pre ++ it :: post)
    (hid : it.id = (stateAtSelection env s detection T).targetId)
    (hpre : ∀ p ∈ pre, p.id ≠ it.id) (hpost : ∀ p ∈ post, p.id ≠ it.id)
    (hw : s.median_window ≤ s.z_history.length) (hlen : 0 < s.z_history.length) :
    ∃ z_history medianZ s' e,
      zStep s.median_window s.z_history (rawZ env s T it) = some (z_history, medianZ) ∧
      trackingCallback env s detection = some (s', e) ∧
      s'.personNotChosenFlag = false ∧ s'.targetId = it.id ∧ s'.z_history = z_history ∧
      s'.lastFixationPoint = (if normGt (fixationCandidate env it medianZ) s.lastFixationPoint
            s.gaze_threshold then fixationCandidate env it (rawZ env s T it)
          else s.lastFixationPoint) ∧
      e.goals = (if normGt (fixationCandidate env it medianZ) s.lastFixationPoint
            s.gaze_threshold then
          [GazeGoal.FIXATION (fixationCandidate env it medianZ) s.fixation_tolerance]
        else []) ∧
      e.positions = [fixationCandidate env it 0] := by
  obtain ⟨z_history, medianZ, hz, -⟩ :=
    zStep_isSome s.median_window s.z_history (rawZ env s T it) hw hlen
  obtain ⟨hg, -⟩ := stateAtSelection_goals env s detection T hsel
  obtain ⟨s₁, e₁, hstep, ht, hflag, hzh, hlast, hgoals, hpos⟩ :=
    followStep_target_full env T (stateAtSelection env s detection T) it z_history medianZ hid hz
  obtain ⟨m, hloop⟩ := followLoop_target env (invert T) (stateAtSelection env s detection T) s₁ it
    _ e₁ post hstep ht (by rw [← hid]; exact hpost) pre (by rw [← hid]; exact hpre)
  have hcall : trackingCallback env s detection
      = some ({ s₁ with frame := s₁.frame + 1 },
          { goals := e₁.goals, positions := e₁.positions, markers := m }) := by
    rw [trackingCallback_eq env s detection T hT, hlist]
    unfold selectionStep
    simp only [hsel, hloop, hg]
    simp
  have hf₁ : (stateAtSelection env s detection T).lastFixationPoint = s.lastFixationPoint := rfl
  have hf₂ : (stateAtSelection env s detection T).gaze_threshold = s.gaze_threshold := rfl
  have hf₃ : (stateAtSelection env s detection T).fixation_tolerance = s.fixation_tolerance := rfl
  have hf₄ : rawZ env (stateAtSelection env s detection T) T it = rawZ env s T it := rfl
  rw [hf₁, hf₂, hf₃] at hgoals
  rw [hf₁, hf₂, hf₄] at hlast
  exact ⟨z_history, medianZ, _, _, hz, hcall, hflag.trans hsel, ht.trans hid.symm, hzh, hlast,
    hgoals, hpos⟩

/-- C19 as amended. Position stream: a frame that reaches the selection step with a
person chosen and with the target's track in the smoothed list (the one track with
that identifier) publishes exactly one position message, `(x, y, 0)` with `(x, y)`
the median-filtered position of the target, and ends with that person chosen. -/
theorem trackingCallback_position (env : Env) (s : Tracker) (detection : DetectionList)
    (T : Mat44) (pre post : List PersonModel) (it : PersonModel)
    (hT : env.lookupTransform detection.header = some T)
    (hsel : (stateAtSelection env s detection T).personNotChosenFlag = false)
    (hlist : smoothedList env s detection T = pre ++ it :: post)
    (hid : it.id = (stateAtSelection env s detection T).targetId)
    (hpre : ∀ p ∈ pre, p.id ≠ it.id) (hpost : ∀ p ∈ post, p.id ≠ it.id)
    (hw : s.median_window ≤ s.z_history.length) (hlen : 0 < s.z_history.length) :
    ∃ s' e, trackingCallback env s detection = some (s', e) ∧
      s'.personNotChosenFlag = false ∧ s'.targetId = it.id ∧
      e.positions = [{ x := (env.medianFilter it).x, y := (env.medianFilter it).y, z := 0 }] := by
  obtain ⟨_, _, s', e, -, hcall, hflag, ht, -, -, -, hpos⟩ :=
    trackingCallback_chosen_frame env s detection T pre post it hT hsel hlist hid hpre hpost hw hlen
  exact ⟨s', e, hcall, hflag, ht, hpos⟩

/-- Witness of the amended C19: the first frame of `exampleTracker`. -/
theorem trackingCallback_position_witness :
    ∃ s' e, trackingCallback exampleEnv exampleTracker (emptyFrame 1) = some (s', e) ∧
      s'.personNotChosenFlag = false ∧
      s'.targetId = (ageTrack exampleTracker.personList examplePerson).id ∧
      e.positions
        = [fixationCandidate exampleEnv (ageTrack exampleTracker.personList examplePerson) 0] :=
  trackingCallback_position exampleEnv exampleTracker (emptyFrame 1) exampleT []
    [] (ageTrack exampleTracker.personList examplePerson) rfl rfl rfl rfl (by simp) (by simp)
    (by decide) (by decide)

/-- Counterexample to C19: `exampleTracker` follows person 1, whose track is in the
registry, and no track is valid after the median filter, so the list of line 271 is
empty: the frame is processed, ends with person 1 chosen, and publishes no position
message. -/
theorem trackingCallback_position_counterexample :
    smoothedList warmingEnv exampleTracker (oneDetectionFrame 1) exampleT = [] ∧
    (trackingCallback warmingEnv exampleTracker (oneDetectionFrame 1)).map
        (fun r => (r.1.personNotChosenFlag, r.1.targetId,
          r.1.personList.personList.map (fun p => p.id), r.2.positions))
      = some (false, 1, [1], []) := by
  decide!

/-- C14, evaluated at a failing frame.  The first frame of `exampleTracker` sends the
fixation goal `(1, 0, 0.95)` and leaves `lastFixationPoint = (1, 0, 3)`, the raw
depth of line 457 instead of the median that was sent. -/
theorem trackingCallback_lastFixationPoint_raw :
    (trackingCallback exampleEnv exampleTracker (emptyFrame 1)).map
        (fun r => (r.2.goals, r.1.lastFixationPoint))
      = some ([GazeGoal.FIXATION { x := 1, y := 0, z := 19 / 20 } (1 / 10)],
          { x := 1, y := 0, z := 3 }) := by
  decide!

/-! ## Theorems: the track and the registry modelled from the spec -/

theorem ageTrack_iterate (pl : PersonList) (p : PersonModel) (k : ℕ) :
    ((ageTrack pl)^[k] p).noDetection = p.noDetection + k ∧
    ((ageTrack pl)^[k] p).lockedOnce = p.lockedOnce := by
  induction k with
  | zero => simp
  | succ k ih =>
    rw [Function.iterate_succ_apply']
    refine ⟨?_, ?_⟩
    · show ((ageTrack pl)^[k] p).noDetection + 1 = _
      rw [ih.1]
      push_cast
      ring
    · show ((ageTrack pl)^[k] p).lockedOnce = _
      exact ih.2

/-- C11. Track lifecycle threshold: a track whose miss counter was reset to 0 has, after
`k ≥ 1` consecutive frames without associated detection, miss counter `k`, and is
marked for deletion if and only if `k` exceeds its threshold
(`numberOfFramesBeforeDestructionLocked` when locked, `numberOfFramesBeforeDestruction`
otherwise); an association resets the counter to 0. -/
theorem track_lifecycle (pl : PersonList) (p : PersonModel) (k : ℕ) (h0 : p.noDetection = 0)
    (hk : 1 ≤ k) :
    ((ageTrack pl)^[k] p).noDetection = k ∧
    (((ageTrack pl)^[k] p).toBeDeleted = true ↔
      (if p.lockedOnce then pl.numberOfFramesBeforeDestructionLocked
        else pl.numberOfFramesBeforeDestruction) < k) ∧
    ∀ d : Detection, (updateTrack pl ((ageTrack pl)^[k] p) d).noDetection = 0 := by
  obtain ⟨j, rfl⟩ : ∃ j, k = j + 1 := ⟨k - 1, by omega⟩
  have hj := ageTrack_iterate pl p j
  refine ⟨?_, ?_, fun d => rfl⟩
  · rw [(ageTrack_iterate pl p (j + 1)).1, h0, zero_add]
  · rw [Function.iterate_succ_apply']
    show decide ((if ((ageTrack pl)^[j] p).lockedOnce then pl.numberOfFramesBeforeDestructionLocked
      else pl.numberOfFramesBeforeDestruction) < ((ageTrack pl)^[j] p).noDetection + 1) = true ↔ _
    rw [hj.1, hj.2, h0, decide_eq_true_eq]
    push_cast
    rw [zero_add]

/-- Witness of C11 with the default thresholds 25 and 35: an unlocked track is not
marked after 25 misses and is marked after 26, a locked one is not marked after 35
and is marked after 36. -/
theorem track_lifecycle_witness :
    (((ageTrack exampleTracker.personList)^[25] examplePerson).toBeDeleted = false ∧
      ((ageTrack exampleTracker.personList)^[26] examplePerson).toBeDeleted = true) ∧
    (((ageTrack exampleTracker.personList)^[35] { examplePerson with lockedOnce := true }).toBeDeleted
        = false ∧
      ((ageTrack exampleTracker.personList)^[36] { examplePerson with lockedOnce := true }).toBeDeleted
        = true) := by
  have h25 := (track_lifecycle exampleTracker.personList examplePerson 25 rfl (by decide)).2.1
  have h26 := (track_lifecycle exampleTracker.personList examplePerson 26 rfl (by decide)).2.1
  have h35 := (track_lifecycle exampleTracker.personList { examplePerson with lockedOnce := true }
    35 rfl (by decide)).2.1
  have h36 := (track_lifecycle exampleTracker.personList { examplePerson with lockedOnce := true }
    36 rfl (by decide)).2.1
  refine ⟨⟨?_, h26.mpr (by decide)⟩, ⟨?_, h36.mpr (by decide)⟩⟩
  · rw [← Bool.not_eq_true, h25]; decide
  · rw [← Bool.not_eq_true, h35]; decide

/-- C12. Median smoothing: for a full position history of window size `w`,
`medianFilter` returns on each axis the entry at index `floor((w - 1) / 2)` of that
axis's values sorted ascending; for the x-history `[1, 2, 3, 4, 1000]` the smoothed
x is 3. -/
theorem medianFilter_median (p : PersonModel) (w : ℕ) (hw : 1 ≤ w)
    (hfull : p.positionHistory.length = w) :
    ((p.positionHistory.map fun q => q.x).insertionSort (· ≤ ·))[(w - 1) / 2]?
      = some p.medianFilter.x ∧
    ((p.positionHistory.map fun q => q.y).insertionSort (· ≤ ·))[(w - 1) / 2]?
      = some p.medianFilter.y ∧
    (∀ q : PersonModel, (q.positionHistory.map fun r => r.x) = [1, 2, 3, 4, 1000] →
      q.medianFilter.x = 3) := by
  have hmid : (w - 1) / 2 < w := by
    have := Nat.div_le_self (w - 1) 2
    omega
  refine ⟨?_, ?_, ?_⟩
  · have hl : (w - 1) / 2 < ((p.positionHistory.map fun q => q.x).insertionSort (· ≤ ·)).length := by
      rw [List.length_insertionSort, List.length_map, hfull]; exact hmid
    rw [List.getElem?_eq_getElem hl]
    unfold PersonModel.medianFilter
    simp only [hfull]
    rw [List.getD_eq_getElem _ _ hl]
  · have hl : (w - 1) / 2 < ((p.positionHistory.map fun q => q.y).insertionSort (· ≤ ·)).length := by
      rw [List.length_insertionSort, List.length_map, hfull]; exact hmid
    rw [List.getElem?_eq_getElem hl]
    unfold PersonModel.medianFilter
    simp only [hfull]
    rw [List.getD_eq_getElem _ _ hl]
  · intro q hq
    have hlen : q.positionHistory.length = 5 := by
      have := congrArg List.length hq
      simpa using this
    unfold PersonModel.medianFilter
    simp only [hq, hlen]
    decide!

/-- Witness of C12: the history of `outlierPerson`, of window size 5. -/
theorem medianFilter_median_witness :
    outlierPerson.medianFilter = { x := 3, y := 2, z := 0 } ∧
    ((outlierPerson.positionHistory.map fun q => q.x).insertionSort (· ≤ ·))[(5 - 1) / 2]?
      = some outlierPerson.medianFilter.x := by
  refine ⟨by decide!, (medianFilter_median outlierPerson 5 (by decide) rfl).1⟩

theorem nearestDetection_eq_none (p : Point2d) (dets : List Detection) :
    nearestDetection p dets = Option.none ↔ dets = [] := by
  cases dets with
  | nil => simp [nearestDetection]
  | cons d ds =>
    simp only [nearestDetection, reduceCtorEq, iff_false]
    cases nearestDetection p ds with
    | none => simp
    | some e => simp only; split_ifs <;> simp

theorem nearestDetection_spec (p : Point2d) :
    ∀ (dets : List Detection) (d : Detection), nearestDetection p dets = some d →
      d ∈ dets ∧ (∀ e ∈ dets, sqDist p d.point ≤ sqDist p e.point) ∧
      (dets.Pairwise (fun a b => a.index < b.index) →
        ∀ e ∈ dets, sqDist p e.point = sqDist p d.point → d.index ≤ e.index) := by
  intro dets
  induction dets with
  | nil => intro d h; simp [nearestDetection] at h
  | cons x ds ih =>
    intro d h
    rw [nearestDetection] at h
    cases hn : nearestDetection p ds with
    | none =>
      rw [hn] at h
      simp only [Option.some.injEq] at h
      subst h
      have hds : ds = [] := (nearestDetection_eq_none p ds).mp hn
      subst hds
      refine ⟨List.mem_singleton_self _, ?_, ?_⟩
      · intro e he
        rw [List.mem_singleton.mp he]
      · intro _ e he _
        rw [List.mem_singleton.mp he]
    | some e₀ =>
      rw [hn] at h
      simp only at h
      obtain ⟨hmem, hmin, htie⟩ := ih e₀ hn
      split_ifs at h with hle
      · simp only [Option.some.injEq] at h
        subst h
        refine ⟨List.mem_cons_self _ _, ?_, ?_⟩
        · intro e he
          rcases List.mem_cons.mp he with he | he
          · rw [he]
          · exact le_trans hle (hmin e he)
        · intro hinc e he _
          rcases List.mem_cons.mp he with he | he
          · rw [he]
          · exact le_of_lt ((List.pairwise_cons.mp hinc).1 e he)
      · simp only [Option.some.injEq] at h
        subst h
        refine ⟨List.mem_cons_of_mem _ hmem, ?_, ?_⟩
        · intro e he
          rcases List.mem_cons.mp he with he | he
          · rw [he]; exact le_of_lt (not_le.mp hle)
          · exact hmin e he
        · intro hinc e he heq
          rcases List.mem_cons.mp he with he | he
          · rw [he] at heq
            exact absurd (le_of_eq heq) hle
          · exact htie (List.pairwise_cons.mp hinc).2 e he heq

theorem filter_unassigned_cons (dets : List Detection) (j : ℕ) (A : List (Option ℕ)) :
    (dets.filter fun e => decide (e.index ≠ j)).filter (fun e => decide (some e.index ∉ A))
      = dets.filter fun e => decide (some e.index ∉ some j :: A) := by
  rw [List.filter_filter]
  apply List.filter_congr
  intro e _
  by_cases h1 : e.index = j <;> by_cases h2 : some e.index ∈ A <;> simp [h1, h2]

theorem filter_unassigned_none (dets : List Detection) (A : List (Option ℕ)) :
    dets.filter (fun e => decide (some e.index ∉ A))
      = dets.filter fun e => decide (some e.index ∉ Option.none :: A) := by
  apply List.filter_congr
  intro e _
  simp

theorem chooseDetection_some (pl : PersonList) (p : PersonModel) (dets : List Detection)
    (d : Detection) (h : chooseDetection pl p dets = some d) :
    d ∈ dets ∧ withinDistance p.position d.point pl.associatingDistance = true ∧
    (∀ e ∈ dets, sqDist p.position d.point ≤ sqDist p.position e.point) ∧
    (dets.Pairwise (fun a b => a.index < b.index) →
      ∀ e ∈ dets, sqDist p.position e.point = sqDist p.position d.point → d.index ≤ e.index) := by
  unfold chooseDetection at h
  cases hn : nearestDetection p.position dets with
  | none => rw [hn] at h; simp at h
  | some d₀ =>
    rw [hn] at h
    simp only at h
    split_ifs at h with hw
    simp only [Option.some.injEq] at h
    subst h
    obtain ⟨h1, h2, h3⟩ := nearestDetection_spec p.position dets d₀ hn
    exact ⟨h1, hw, h2, h3⟩

theorem chooseDetection_none (pl : PersonList) (p : PersonModel) (dets : List Detection)
    (h : chooseDetection pl p dets = Option.none) :
    ∀ e ∈ dets, withinDistance p.position e.point pl.associatingDistance = false := by
  intro e he
  unfold chooseDetection at h
  cases hn : nearestDetection p.position dets with
  | none =>
    rw [(nearestDetection_eq_none _ _).mp hn] at he
    simp at he
  | some d₀ =>
    rw [hn] at h
    simp only at h
    split_ifs at h with hw
    obtain ⟨-, h2, -⟩ := nearestDetection_spec p.position dets d₀ hn
    by_contra hc
    rw [Bool.not_eq_false] at hc
    apply hw
    unfold withinDistance at hc ⊢
    rw [decide_eq_true_eq] at hc ⊢
    exact ⟨hc.1, le_trans (h2 e he) hc.2⟩

theorem associateTracks_spec (pl : PersonList) :
    ∀ (ps : List PersonModel) (dets : List Detection),
      dets.Pairwise (fun a b => a.index < b.index) →
      (associateTracks pl ps dets).1.length = ps.length ∧
      (associateTracks pl ps dets).2 = dets.filter (fun e =>
        decide (some e.index ∉ (associateTracks pl ps dets).1.map Prod.snd)) ∧
      (∀ (i j : ℕ), ((associateTracks pl ps dets).1.map Prod.snd)[i]? = some (some j) →
        ∃ d ∈ dets, d.index = j) ∧
      (∀ (i : ℕ) (p : PersonModel), ps[i]? = some p →
        (∃ d ∈ dets, (associateTracks pl ps dets).1[i]? = some (updateTrack pl p d, some d.index) ∧
          some d.index ∉ ((associateTracks pl ps dets).1.map Prod.snd).take i ∧
          withinDistance p.position d.point pl.associatingDistance = true ∧
          ∀ e ∈ dets, some e.index ∉ ((associateTracks pl ps dets).1.map Prod.snd).take i →
            sqDist p.position d.point ≤ sqDist p.position e.point ∧
            (sqDist p.position e.point = sqDist p.position d.point → d.index ≤ e.index)) ∨
        ((associateTracks pl ps dets).1[i]? = some (ageTrack pl p, Option.none) ∧
          ∀ e ∈ dets, some e.index ∉ ((associateTracks pl ps dets).1.map Prod.snd).take i →
            withinDistance p.position e.point pl.associatingDistance = false)) ∧
      (∀ (i i' j : ℕ), ((associateTracks pl ps dets).1.map Prod.snd)[i]? = some (some j) →
        ((associateTracks pl ps dets).1.map Prod.snd)[i']? = some (some j) → i = i') := by
  intro ps
  induction ps with
  | nil =>
    intro dets _
    refine ⟨rfl, ?_, ?_, ?_, ?_⟩
    · simp [associateTracks]
    · intro i j h; simp [associateTracks] at h
    · intro i p h; simp at h
    · intro i i' j h; simp [associateTracks] at h
  | cons p ps ih =>
    intro dets hinc
    cases hc : chooseDetection pl p dets with
    | none =>
      have hun : associateTracks pl (p :: ps) dets
          = ((ageTrack pl p, Option.none) :: (associateTracks pl ps dets).1,
              (associateTracks pl ps dets).2) := by
        rw [associateTracks, hc]
      obtain ⟨ih1, ih2, ih3, ih4, ih5⟩ := ih dets hinc
      rw [hun]
      simp only [List.map_cons, List.length_cons]
      refine ⟨by rw [ih1], ?_, ?_, ?_, ?_⟩
      · rw [← filter_unassigned_none]
        exact ih2
      · intro i j h
        cases i with
        | zero => simp at h
        | succ k =>
          rw [List.getElem?_cons_succ] at h
          exact ih3 k j h
      · intro i q hq
        cases i with
        | zero =>
          simp only [List.getElem?_cons_zero, Option.some.injEq] at hq
          subst hq
          right
          exact ⟨List.getElem?_cons_zero, fun e he _ => chooseDetection_none pl p dets hc e he⟩
        | succ k =>
          rw [List.getElem?_cons_succ] at hq
          rcases ih4 k q hq with ⟨d, hd, h1, h2, h3, h4⟩ | ⟨h1, h2⟩
          · left
            refine ⟨d, hd, by rw [List.getElem?_cons_succ]; exact h1, ?_, h3, ?_⟩
            · rw [List.take_succ_cons]
              simpa using h2
            · intro e he hne
              rw [List.take_succ_cons] at hne
              exact h4 e he (by simpa using hne)
          · right
            refine ⟨by rw [List.getElem?_cons_succ]; exact h1, ?_⟩
            intro e he hne
            rw [List.take_succ_cons] at hne
            exact h2 e he (by simpa using hne)
      · intro i i' j h h'
        cases i with
        | zero => simp at h
        | succ k =>
          cases i' with
          | zero => simp at h'
          | succ k' =>
            rw [List.getElem?_cons_succ] at h h'
            rw [ih5 k k' j h h']
    | some d =>
      have hun : associateTracks pl (p :: ps) dets
          = ((updateTrack pl p d, some d.index)
              :: (associateTracks pl ps (dets.filter fun e => decide (e.index ≠ d.index))).1,
              (associateTracks pl ps (dets.filter fun e => decide (e.index ≠ d.index))).2) := by
        rw [associateTracks, hc]
      obtain ⟨hd, hwithin, hmin, htie⟩ := chooseDetection_some pl p dets d hc
      obtain ⟨ih1, ih2, ih3, ih4, ih5⟩ :=
        ih (dets.filter fun e => decide (e.index ≠ d.index)) (hinc.filter _)
      have hmem : ∀ e, e ∈ dets.filter (fun e => decide (e.index ≠ d.index))
          ↔ e ∈ dets ∧ e.index ≠ d.index := by
        intro e
        rw [List.mem_filter, decide_eq_true_eq]
      rw [hun]
      simp only [List.map_cons, List.length_cons]
      refine ⟨by rw [ih1], ?_, ?_, ?_, ?_⟩
      · rw [← filter_unassigned_cons]
        exact ih2
      · intro i j h
        cases i with
        | zero =>
          simp only [List.getElem?_cons_zero, Option.some.injEq] at h
          exact ⟨d, hd, h⟩
        | succ k =>
          rw [List.getElem?_cons_succ] at h
          obtain ⟨d', hd', hj⟩ := ih3 k j h
          exact ⟨d', ((hmem d').mp hd').1, hj⟩
      · intro i q hq
        cases i with
        | zero =>
          simp only [List.getElem?_cons_zero, Option.some.injEq] at hq
          subst hq
          left
          refine ⟨d, hd, List.getElem?_cons_zero, by simp, hwithin, ?_⟩
          intro e he _
          exact ⟨hmin e he, htie hinc e he⟩
        | succ k =>
          rw [List.getElem?_cons_succ] at hq
          rcases ih4 k q hq with ⟨d', hd', h1, h2, h3, h4⟩ | ⟨h1, h2⟩
          · left
            obtain ⟨hd'mem, hd'ne⟩ := (hmem d').mp hd'
            refine ⟨d', hd'mem, by rw [List.getElem?_cons_succ]; exact h1, ?_, h3, ?_⟩
            · rw [List.take_succ_cons, List.mem_cons, not_or]
              exact ⟨fun h => hd'ne (Option.some.inj h), h2⟩
            · intro e he hne
              rw [List.take_succ_cons, List.mem_cons, not_or] at hne
              exact h4 e ((hmem e).mpr ⟨he, fun h => hne.1 (congrArg some h)⟩) hne.2
          · right
            refine ⟨by rw [List.getElem?_cons_succ]; exact h1, ?_⟩
            intro e he hne
            rw [List.take_succ_cons, List.mem_cons, not_or] at hne
            exact h2 e ((hmem e).mpr ⟨he, fun h => hne.1 (congrArg some h)⟩) hne.2
      · intro i i' j h h'
        cases i with
        | zero =>
          cases i' with
          | zero => rfl
          | succ k' =>
            simp only [List.getElem?_cons_zero, Option.some.injEq] at h
            rw [List.getElem?_cons_succ] at h'
            obtain ⟨d', hd', hj⟩ := ih3 k' j h'
            exact absurd (hj.trans h.symm) ((hmem d').mp hd').2
        | succ k =>
          cases i' with
          | zero =>
            simp only [List.getElem?_cons_zero, Option.some.injEq] at h'
            rw [List.getElem?_cons_succ] at h
            obtain ⟨d', hd', hj⟩ := ih3 k j h
            exact absurd (hj.trans h'.symm) ((hmem d').mp hd').2
          | succ k' =>
            rw [List.getElem?_cons_succ] at h h'
            rw [ih5 k k' j h h']

theorem indexFrom_getElem : ∀ (l : List (Point3d × Rect)) (n k : ℕ),
    (indexFrom n l)[k]? = (l[k]?).map fun d => { index := n + k, point := d.1, rect := d.2 } := by
  intro l
  induction l with
  | nil => intro n k; simp [indexFrom]
  | cons x xs ih =>
    intro n k
    cases k with
    | zero => simp [indexFrom]
    | succ k =>
      rw [indexFrom, List.getElem?_cons_succ, List.getElem?_cons_succ, ih (n + 1) k]
      have : n + 1 + k = n + (k + 1) := by omega
      rw [this]

theorem indexFrom_pairwise : ∀ (l : List (Point3d × Rect)) (n : ℕ),
    (∀ d ∈ indexFrom n l, n ≤ d.index) ∧
    (indexFrom n l).Pairwise (fun a b => a.index < b.index) := by
  intro l
  induction l with
  | nil => intro n; simp [indexFrom]
  | cons x xs ih =>
    intro n
    obtain ⟨h1, h2⟩ := ih (n + 1)
    refine ⟨?_, ?_⟩
    · intro d hd
      rw [indexFrom, List.mem_cons] at hd
      rcases hd with hd | hd
      · rw [hd]
      · exact le_trans (Nat.le_succ n) (h1 d hd)
    · rw [indexFrom, List.pairwise_cons]
      exact ⟨fun d hd => h1 d hd, h2⟩

theorem spawnTracks_getElem (pl : PersonList) : ∀ (ds : List Detection) (n : Int) (k : ℕ),
    (spawnTracks pl n ds)[k]? = (ds[k]?).map fun d => newTrack pl (n + 1 + k) d := by
  intro ds
  induction ds with
  | nil => intro n k; simp [spawnTracks]
  | cons x xs ih =>
    intro n k
    cases k with
    | zero => simp [spawnTracks]
    | succ k =>
      rw [spawnTracks, List.getElem?_cons_succ, List.getElem?_cons_succ, ih (n + 1) k]
      have : n + 1 + 1 + (k : Int) = n + 1 + ((k + 1 : ℕ) : Int) := by push_cast; ring
      rw [this]

theorem spawnTracks_length (pl : PersonList) : ∀ (ds : List Detection) (n : Int),
    (spawnTracks pl n ds).length = ds.length := by
  intro ds
  induction ds with
  | nil => intro n; rfl
  | cons x xs ih => intro n; simp [spawnTracks, ih]

theorem spawnTracks_noDetection (pl : PersonList) : ∀ (ds : List Detection) (n : Int),
    ∀ t ∈ spawnTracks pl n ds, t.noDetection = 0 := by
  intro ds
  induction ds with
  | nil => intro n t ht; simp [spawnTracks] at ht
  | cons x xs ih =>
    intro n t ht
    rw [spawnTracks, List.mem_cons] at ht
    rcases ht with ht | ht
    · rw [ht]; rfl
    · exact ih _ t ht

theorem withinDistance_iff (p : Point2d) (d : Point3d) (a : ℚ) :
    withinDistance p d a = true ↔ Real.sqrt ((sqDist p d : ℚ) : ℝ) ≤ (a : ℝ) := by
  unfold withinDistance
  rw [decide_eq_true_eq, Real.sqrt_le_iff]
  constructor
  · rintro ⟨h1, h2⟩
    exact ⟨by exact_mod_cast h1, by exact_mod_cast h2⟩
  · rintro ⟨h1, h2⟩
    exact ⟨by exact_mod_cast h1, by exact_mod_cast h2⟩

/-- C13. Gated greedy association.  Detection `k` is the `k`-th world point with the
`k`-th rectangle.  A track associated with detection `j` is updated with it, is at
Euclidean distance at most `associatingDistance` from it, and `j` is the nearest of
the detections not associated with an earlier track, the one of least index among
those at that distance; a track without association is aged; no detection is
associated with two tracks; the tracks appended to the registry are, in input
order, one new track per detection left unassociated, each with miss counter 0.
The assignment is a function of the registry and the detections. -/
theorem associateData_greedy (pl : PersonList) (coordsInBaseFrame : List Point3d)
    (rects : List Rect) :
    (∀ (k : ℕ) (d : Detection), (indexDetections coordsInBaseFrame rects)[k]? = some d →
      d.index = k ∧ coordsInBaseFrame[k]? = some d.point ∧ rects[k]? = some d.rect) ∧
    (pl.assignment coordsInBaseFrame rects).length = pl.personList.length ∧
    (∀ (i j : ℕ) (p : PersonModel), pl.personList[i]? = some p →
      (pl.assignment coordsInBaseFrame rects)[i]? = some (some j) →
      ∃ d ∈ indexDetections coordsInBaseFrame rects, d.index = j ∧
        (pl.associateData coordsInBaseFrame rects).personList[i]? = some (updateTrack pl p d) ∧
        Real.sqrt ((sqDist p.position d.point : ℚ) : ℝ) ≤ (pl.associatingDistance : ℝ) ∧
        ∀ e ∈ indexDetections coordsInBaseFrame rects,
          some e.index ∉ (pl.assignment coordsInBaseFrame rects).take i →
          Real.sqrt ((sqDist p.position d.point : ℚ) : ℝ)
              ≤ Real.sqrt ((sqDist p.position e.point : ℚ) : ℝ) ∧
            (sqDist p.position e.point = sqDist p.position d.point → j ≤ e.index)) ∧
    (∀ (i : ℕ) (p : PersonModel), pl.personList[i]? = some p →
      (pl.assignment coordsInBaseFrame rects)[i]? = some Option.none →
      (pl.associateData coordsInBaseFrame rects).personList[i]? = some (ageTrack pl p)) ∧
    (∀ (i i' j : ℕ), (pl.assignment coordsInBaseFrame rects)[i]? = some (some j) →
      (pl.assignment coordsInBaseFrame rects)[i']? = some (some j) → i = i') ∧
    (pl.associateData coordsInBaseFrame rects).personList.drop pl.personList.length
      = spawnTracks pl pl.nPersons ((indexDetections coordsInBaseFrame rects).filter fun e =>
          decide (some e.index ∉ pl.assignment coordsInBaseFrame rects)) ∧
    (∀ (k : ℕ) (d : Detection),
      ((indexDetections coordsInBaseFrame rects).filter fun e =>
          decide (some e.index ∉ pl.assignment coordsInBaseFrame rects))[k]? = some d →
      ((pl.associateData coordsInBaseFrame rects).personList.drop pl.personList.length)[k]?
        = some (newTrack pl (pl.nPersons + 1 + k) d)) ∧
    ((pl.associateData coordsInBaseFrame rects).personList.drop pl.personList.length).length
      = ((indexDetections coordsInBaseFrame rects).filter fun e =>
          decide (some e.index ∉ pl.assignment coordsInBaseFrame rects)).length ∧
    ∀ t ∈ (pl.associateData coordsInBaseFrame rects).personList.drop pl.personList.length,
      t.noDetection = 0 := by
  obtain ⟨h1, h2, -, h4, h5⟩ := associateTracks_spec pl pl.personList
    (indexDetections coordsInBaseFrame rects) (indexFrom_pairwise _ 0).2
  have hlenfst : ((associateTracks pl pl.personList
      (indexDetections coordsInBaseFrame rects)).1.map Prod.fst).length
        = pl.personList.length := by
    rw [List.length_map, h1]
  have hdrop : (pl.associateData coordsInBaseFrame rects).personList.drop pl.personList.length
      = spawnTracks pl pl.nPersons ((indexDetections coordsInBaseFrame rects).filter fun e =>
          decide (some e.index ∉ pl.assignment coordsInBaseFrame rects)) := by
    unfold PersonList.associateData PersonList.assignment
    simp only
    rw [List.drop_left' hlenfst, ← h2]
  have hget : ∀ (i : ℕ) (p : PersonModel), pl.personList[i]? = some p →
      (pl.associateData coordsInBaseFrame rects).personList[i]?
        = ((associateTracks pl pl.personList
            (indexDetections coordsInBaseFrame rects)).1[i]?).map Prod.fst := by
    intro i p hp
    have hi : i < pl.personList.length := by
      by_contra hc
      rw [List.getElem?_eq_none (not_lt.mp hc)] at hp
      exact absurd hp (by simp)
    unfold PersonList.associateData
    simp only
    rw [List.getElem?_append_left (by rw [hlenfst]; exact hi), List.getElem?_map]
  refine ⟨?_, ?_, ?_, ?_, ?_, hdrop, ?_, ?_, ?_⟩
  · intro k d hk
    unfold indexDetections at hk
    rw [indexFrom_getElem] at hk
    cases hz : (coordsInBaseFrame.zip rects)[k]? with
    | none => rw [hz] at hk; simp at hk
    | some cr =>
      rw [hz] at hk
      simp only [Option.map_some', Option.some.injEq] at hk
      subst hk
      rw [List.getElem?_zip_eq_some] at hz
      exact ⟨by simp, hz.1, hz.2⟩
  · unfold PersonList.assignment
    rw [List.length_map, h1]
  · intro i j p hp hA
    unfold PersonList.assignment at hA ⊢
    rcases h4 i p hp with ⟨d, hd, e1, e2, e3, e4⟩ | ⟨e1, -⟩
    · rw [List.getElem?_map, e1] at hA
      simp only [Option.map_some', Option.some.injEq] at hA
      refine ⟨d, hd, hA, ?_, (withinDistance_iff _ _ _).mp e3, ?_⟩
      · rw [hget i p hp, e1]
        rfl
      · intro e he hne
        obtain ⟨m1, m2⟩ := e4 e he hne
        refine ⟨Real.sqrt_le_sqrt (by exact_mod_cast m1), ?_⟩
        intro heq
        rw [← hA]
        exact m2 heq
    · rw [List.getElem?_map, e1] at hA
      simp at hA
  · intro i p hp hA
    unfold PersonList.assignment at hA
    rcases h4 i p hp with ⟨d, hd, e1, -⟩ | ⟨e1, -⟩
    · rw [List.getElem?_map, e1] at hA
      simp at hA
    · rw [hget i p hp, e1]
      rfl
  · exact h5
  · intro k d hk
    rw [hdrop, spawnTracks_getElem, hk]
    rfl
  · rw [hdrop, spawnTracks_length]
  · intro t ht
    rw [hdrop] at ht
    exact spawnTracks_noDetection pl _ _ t ht

/-- Witness of C13: the track at (1, 0) and the detections `exampleCoords`; detections 1
and 2 are both at distance 1/4, detection 1 is associated, detections 0 and 2 spawn
the tracks 2 and 3. -/
theorem associateData_greedy_witness :
    exampleTracker.personList.assignment exampleCoords exampleRects = [some 1] ∧
    ((exampleTracker.personList.associateData exampleCoords exampleRects).personList.map
      fun p => (p.id, p.noDetection, p.position))
      = [(1, 0, { x := 1, y := 1 / 4 }), (2, 0, { x := 5, y := 5 }),
         (3, 0, { x := 1, y := -1 / 4 })] ∧
    ∃ d ∈ indexDetections exampleCoords exampleRects, d.index = 1 ∧
      (exampleTracker.personList.associateData exampleCoords exampleRects).personList[0]?
        = some (updateTrack exampleTracker.personList examplePerson d) ∧
      Real.sqrt ((sqDist examplePerson.position d.point : ℚ) : ℝ)
        ≤ (exampleTracker.personList.associatingDistance : ℝ) ∧
      ∀ e ∈ indexDetections exampleCoords exampleRects,
        some e.index ∉ (exampleTracker.personList.assignment exampleCoords exampleRects).take 0 →
        Real.sqrt ((sqDist examplePerson.position d.point : ℚ) : ℝ)
            ≤ Real.sqrt ((sqDist examplePerson.position e.point : ℚ) : ℝ) ∧
          (sqDist examplePerson.position e.point = sqDist examplePerson.position d.point →
            1 ≤ e.index) :=
  ⟨by decide!, by decide!,
    (associateData_greedy exampleTracker.personList exampleCoords exampleRects).2.2.1 0 1
      examplePerson rfl (by decide!)⟩

/-! ## Theorems: array bounds, re-selection, the state kept across HOME -/

theorem initIndices_mem : ∀ (n : ℕ) (i k : Int), k ∈ initIndices n i ↔ i ≤ k ∧ k < i + n := by
  intro n
  induction n with
  | zero => intro i k; simp [initIndices]
  | succ n ih =>
    intro i k
    rw [initIndices, List.mem_cons, ih]
    push_cast
    omega

theorem shiftIndices_mem (W : Int) : ∀ (n : ℕ) (i k : Int), k ∈ shiftIndices W n i →
    W - 1 - (i + n) ≤ k ∧ k ≤ W - 1 - i := by
  intro n
  induction n with
  | zero => intro i k h; simp [shiftIndices] at h
  | succ n ih =>
    intro i k h
    rw [shiftIndices, List.mem_cons, List.mem_cons] at h
    push_cast
    rcases h with h | h | h
    · omega
    · omega
    · have := ih (i + 1) k h
      omega

theorem initLoop_none : ∀ (n i : ℕ) (h : List ℚ), i ≤ h.length → h.length < i + n →
    initLoop n i h = Option.none := by
  intro n
  induction n with
  | zero => intro i h hi hlt; omega
  | succ n ih =>
    intro i h hi hlt
    rw [initLoop]
    split_ifs with hlt'
    · exact ih (i + 1) _ (by simp; omega) (by simp; omega)
    · rfl

theorem zStep_none (w : ℕ) (h : List ℚ) (z : ℚ) (hw : h.length < w) (hpos : 0 < h.length) :
    zStep w h z = Option.none := by
  obtain ⟨m, hm⟩ : ∃ m, w - 1 = m + 1 := ⟨w - 2, by omega⟩
  have hs : shiftLoop w (w - 1) 0 h = Option.none := by
    rw [hm, shiftLoop]
    cases h.get? (w - 1 - (0 + 1)) with
    | none => rfl
    | some v =>
      simp only
      rw [if_neg (by omega)]
  unfold zStep
  rw [hs]

theorem atIndex_eq (w : ℕ) (hw : 1 ≤ w) : atIndex w = (((w - 1) / 2 : ℕ) : Int) := by
  unfold atIndex
  have h : ((w : Int) - 1) = ((w - 1 : ℕ) : Int) := by omega
  rw [h, Int.tdiv_eq_ediv (by omega) (by omega)]
  rfl

/-- C21. Bounds safety of the depth history.  For a window `1 ≤ w ≤ 100`, every index of
`z_history` used by the constructor loop and by the update (shift loop, store of
line 428, copy into `z_vect`) lies in `[0, 99]`, so does every index of `z_vect` in
the sorted range, the index passed to `z_vect.at` is `floor((w - 1) / 2)`, not
negative and less than `w`, and the constructor loop and the update run inside the
array of 100 entries.  For `w > 100` the constructor loop, the update and the sort
each use an index above 99, and neither the loop nor the update stays inside the
array. -/
theorem z_history_bounds (w : ℕ) :
    (1 ≤ w → w ≤ 100 →
      (∀ k ∈ initIndices w 0, 0 ≤ k ∧ k ≤ 99) ∧
      (∀ k ∈ updateIndices w, 0 ≤ k ∧ k ≤ 99) ∧
      (∀ k ∈ sortIndices w, 0 ≤ k ∧ k ≤ 99) ∧
      atIndex w = (((w - 1) / 2 : ℕ) : Int) ∧ 0 ≤ atIndex w ∧ atIndex w < w ∧
      (∀ g : List ℚ, g.length = 100 → ∃ h, initLoop w 0 g = some h ∧ h.length = 100) ∧
      (∀ (h : List ℚ) (z : ℚ), h.length = 100 →
        ∃ h' m, zStep w h z = some (h', m) ∧ h'.length = 100)) ∧
    (100 < w →
      (∃ k ∈ initIndices w 0, 99 < k) ∧ (∃ k ∈ updateIndices w, 99 < k) ∧
      (∃ k ∈ sortIndices w, 99 < k) ∧
      (∀ g : List ℚ, g.length = 100 → initLoop w 0 g = Option.none) ∧
      (∀ (h : List ℚ) (z : ℚ), h.length = 100 → zStep w h z = Option.none)) := by
  constructor
  · intro hw1 hw
    have hat := atIndex_eq w hw1
    have hdiv := Nat.div_le_self (w - 1) 2
    refine ⟨?_, ?_, ?_, hat, ?_, ?_, ?_, ?_⟩
    · intro k hk
      rw [initIndices_mem] at hk
      omega
    · intro k hk
      unfold updateIndices at hk
      rw [List.mem_append, List.mem_append] at hk
      rcases hk with (hk | hk) | hk
      · have := shiftIndices_mem w (w - 1) 0 k hk
        omega
      · rw [List.mem_singleton] at hk
        omega
      · rw [List.mem_map] at hk
        obtain ⟨j, hj, rfl⟩ := hk
        rw [List.mem_range] at hj
        simp only [Int.ofNat_eq_coe]
        omega
    · intro k hk
      unfold sortIndices at hk
      rw [List.mem_map] at hk
      obtain ⟨j, hj, rfl⟩ := hk
      rw [List.mem_range] at hj
      simp only [Int.ofNat_eq_coe]
      omega
    · rw [hat]; omega
    · rw [hat]; omega
    · intro g hg
      obtain ⟨h, e, hl, -⟩ := initLoop_getElem w 0 g (by omega)
      exact ⟨h, e, hl.trans hg⟩
    · intro h z hh
      obtain ⟨h', m, e, hl⟩ := zStep_isSome w h z (by omega) (by omega)
      exact ⟨h', m, e, hl.trans hh⟩
  · intro hw
    refine ⟨⟨100, (initIndices_mem w 0 100).mpr (by omega), by omega⟩, ?_, ?_, ?_, ?_⟩
    · obtain ⟨m, hm⟩ : ∃ m, w - 1 = m + 1 := ⟨w - 2, by omega⟩
      refine ⟨(w : Int) - 1 - 0, ?_, by omega⟩
      unfold updateIndices
      rw [hm, shiftIndices]
      simp
    · refine ⟨100, ?_, by omega⟩
      unfold sortIndices
      rw [List.mem_map]
      exact ⟨100, List.mem_range.mpr hw, rfl⟩
    · intro g hg
      exact initLoop_none w 0 g (by omega) (by omega)
    · intro h z hh
      exact zStep_none w h z (by omega) (by omega)

theorem stateAtSelection_eq (env : Env) (s : Tracker) (detection : DetectionList) (T : Mat44) :
    (stateAtSelection env s detection T).personNotChosenFlag
      = (deleteTrackers (registryAtDeletion env s detection T) s.personNotChosenFlag
          s.targetId).2.1 ∧
    (stateAtSelection env s detection T).targetId
      = (deleteTrackers (registryAtDeletion env s detection T) s.personNotChosenFlag
          s.targetId).2.2.1 ∧
    (associateAndDelete env { s with last_image_header := detection.header } detection T).2
      = (deleteTrackers (registryAtDeletion env s detection T) s.personNotChosenFlag
          s.targetId).2.2.2 :=
  ⟨rfl, rfl, rfl⟩

theorem deleteTrackers_flag_true (l : List PersonModel) (targetId : Int) :
    (deleteTrackers l true targetId).2.1 = true := by
  induction l with
  | nil => rfl
  | cons it rest ih =>
    unfold deleteTrackers
    split_ifs
    · exact (deleteTrackers_unselected rest).1
    · exact ih
    · exact ih

theorem stateAtSelection_unselected_of_flag (env : Env) (s : Tracker)
    (detection : DetectionList) (T : Mat44) (h : s.personNotChosenFlag = true) :
    (stateAtSelection env s detection T).personNotChosenFlag = true := by
  rw [(stateAtSelection_eq env s detection T).1, h]
  exact deleteTrackers_flag_true _ _

theorem stateAtSelection_unselected_of_lost_target (env : Env) (s : Tracker)
    (detection : DetectionList) (T : Mat44)
    (h : ∃ p ∈ registryAtDeletion env s detection T, p.toBeDeleted = true ∧ p.id = s.targetId) :
    (stateAtSelection env s detection T).personNotChosenFlag = true ∧
    (stateAtSelection env s detection T).targetId = -1 ∧
    GazeGoal.HOME ∈
      (associateAndDelete env { s with last_image_header := detection.header } detection T).2 := by
  obtain ⟨h1, h2, h3⟩ := deleteTrackers_with_target _ s.personNotChosenFlag s.targetId h
  refine ⟨by rw [(stateAtSelection_eq env s detection T).1]; exact h1,
    by rw [(stateAtSelection_eq env s detection T).2.1]; exact h2, ?_⟩
  rw [(stateAtSelection_eq env s detection T).2.2]
  obtain ⟨g, gs, hg⟩ := List.exists_cons_of_ne_nil h3
  have := deleteTrackers_goals_home (registryAtDeletion env s detection T) s.personNotChosenFlag
    s.targetId g (by rw [hg]; exact List.mem_cons_self _ _)
  rw [hg, this]
  exact List.mem_cons_self _ _

theorem processFeedback_markerName (s : Tracker) (n : Int) (h : s.personNotChosenFlag = true)
    (h₁ : -2147483648 ≤ n) (h₂ : n ≤ 2147483647) :
    (processFeedback s { marker_name := markerName n }).1
      = { s with targetId := n, personNotChosenFlag := false } ∧
    (processFeedback s { marker_name := markerName n }).2.goals = [] := by
  unfold processFeedback
  simp only [h, if_true, extractWord_markerName, extractInt_showInt s.targetId n h₁ h₂]
  simp [Effects.none]

/-- C22, at every frame the claim is about.  A frame that reaches the selection step
with no person chosen never ends with a person chosen.  When the smoothed list is not
empty the callback does not return: line 307 hands the 3x4 slice `RT` to `invert`,
whose LU method requires a square matrix, and nothing catches the exception.  The
callback returns exactly when the list is empty; `personNotChosenFlag` and `targetId`
are then as they were at that step, and every goal the frame sent is `HOME`. -/
theorem trackingCallback_never_reselects (env : Env) (s : Tracker) (detection : DetectionList)
    (T : Mat44) (hT : env.lookupTransform detection.header = some T)
    (hsel : (stateAtSelection env s detection T).personNotChosenFlag = true) :
    ((trackingCallback env s detection).isSome = true ↔ smoothedList env s detection T = []) ∧
    ∀ s' e, trackingCallback env s detection = some (s', e) →
      s'.personNotChosenFlag = true ∧
      s'.targetId = (stateAtSelection env s detection T).targetId ∧
      ∀ g ∈ e.goals, g = GazeGoal.HOME := by
  obtain ⟨-, hret⟩ := trackingCallback_unchosen_frame env s detection T hT hsel
  have hiff := trackingCallback_unchosen_iff env s detection T hT hsel
  refine ⟨hiff, ?_⟩
  intro s' e hcall
  have hnil : smoothedList env s detection T = [] := hiff.mp (by rw [hcall]; rfl)
  obtain ⟨s₁, e₁, hcall₁, hflag, htarget, hgoals, -⟩ := hret hnil
  rw [hcall] at hcall₁
  simp only [Option.some.injEq, Prod.mk.injEq] at hcall₁
  obtain ⟨hs, he⟩ := hcall₁
  subst hs
  subst he
  refine ⟨hflag, htarget, ?_⟩
  rw [hgoals, (stateAtSelection_eq env s detection T).2.2]
  exact deleteTrackers_goals_home _ _ _

/-- C23. HOME does not reset the hysteresis state.  The deselect branch of
`processFeedback` sends `HOME` and leaves `lastFixationPoint` and `z_history` as they
were.  So does the deleted-target branch of `trackingCallback`: the tracker at line 271
has no person chosen, `HOME` was sent, and both are as they were, also when the
callback returns (which it does when the smoothed list is empty).  Consequently, when
a click on the marker `person <n>` chooses a target while no person is chosen, the
stored point is still the old one, and the next frame on the target sends no goal if
its candidate `(x, y, medianZ)` is not farther than `gaze_threshold` from that
point. -/
theorem home_keeps_hysteresis :
    (∀ (s : Tracker) (feedback : InteractiveMarkerFeedback), s.personNotChosenFlag = false →
      (processFeedback s feedback).1.personNotChosenFlag = true ∧
      (processFeedback s feedback).2.goals = [GazeGoal.HOME] ∧
      (processFeedback s feedback).1.lastFixationPoint = s.lastFixationPoint ∧
      (processFeedback s feedback).1.z_history = s.z_history) ∧
    (∀ (env : Env) (s : Tracker) (detection : DetectionList) (T : Mat44),
      env.lookupTransform detection.header = some T →
      (∃ p ∈ registryAtDeletion env s detection T, p.toBeDeleted = true ∧ p.id = s.targetId) →
      ((stateAtSelection env s detection T).personNotChosenFlag = true ∧
        (stateAtSelection env s detection T).targetId = -1 ∧
        GazeGoal.HOME ∈
          (associateAndDelete env { s with last_image_header := detection.header }
            detection T).2 ∧
        (stateAtSelection env s detection T).lastFixationPoint = s.lastFixationPoint ∧
        (stateAtSelection env s detection T).z_history = s.z_history) ∧
      (smoothedList env s detection T = [] →
        ∃ s' e, trackingCallback env s detection = some (s', e)) ∧
      ∀ s' e, trackingCallback env s detection = some (s', e) →
        s'.personNotChosenFlag = true ∧ GazeGoal.HOME ∈ e.goals ∧
        s'.lastFixationPoint = s.lastFixationPoint ∧ s'.z_history = s.z_history) ∧
    (∀ (env : Env) (s₁ : Tracker) (n : Int) (dB : DetectionList) (TB : Mat44)
      (pre post : List PersonModel) (it : PersonModel),
      s₁.personNotChosenFlag = true → -2147483648 ≤ n → n ≤ 2147483647 →
      env.lookupTransform dB.header = some TB →
      (stateAtSelection env (processFeedback s₁ { marker_name := markerName n }).1 dB
        TB).personNotChosenFlag = false →
      smoothedList env (processFeedback s₁ { marker_name := markerName n }).1 dB TB
        = pre ++ it :: post →
      it.id = n → (∀ p ∈ pre, p.id ≠ it.id) → (∀ p ∈ post, p.id ≠ it.id) →
      s₁.median_window ≤ s₁.z_history.length → 0 < s₁.z_history.length →
      (processFeedback s₁ { marker_name := markerName n }).1.personNotChosenFlag = false ∧
      (processFeedback s₁ { marker_name := markerName n }).1.targetId = n ∧
      (processFeedback s₁ { marker_name := markerName n }).1.lastFixationPoint
        = s₁.lastFixationPoint ∧
      (processFeedback s₁ { marker_name := markerName n }).1.z_history = s₁.z_history ∧
      ∃ z_history medianZ s₃ eB,
        zStep s₁.median_window s₁.z_history (rawZ env s₁ TB it) = some (z_history, medianZ) ∧
        trackingCallback env (processFeedback s₁ { marker_name := markerName n }).1 dB
          = some (s₃, eB) ∧
        s₃.personNotChosenFlag = false ∧ s₃.targetId = n ∧
        (¬ (s₁.gaze_threshold : ℝ) <
            Real.sqrt ((((env.medianFilter it).x - s₁.lastFixationPoint.x) ^ 2
              + ((env.medianFilter it).y - s₁.lastFixationPoint.y) ^ 2
              + (medianZ - s₁.lastFixationPoint.z) ^ 2 : ℚ) : ℝ) →
          eB.goals = [] ∧ s₃.lastFixationPoint = s₁.lastFixationPoint)) := by
  refine ⟨?_, ?_, ?_⟩
  · intro s feedback h
    simp [processFeedback, h, Effects.none]
  · intro env s detection T hT hlost
    obtain ⟨hsel, htarget, hhome⟩ :=
      stateAtSelection_unselected_of_lost_target env s detection T hlost
    obtain ⟨-, hret⟩ := trackingCallback_unchosen_frame env s detection T hT hsel
    have hiff := (trackingCallback_unchosen_iff env s detection T hT hsel).mp
    refine ⟨⟨hsel, htarget, hhome, rfl, rfl⟩, ?_, ?_⟩
    · intro hnil
      obtain ⟨s', e, hcall, -⟩ := hret hnil
      exact ⟨s', e, hcall⟩
    · intro s' e hcall
      have hnil : smoothedList env s detection T = [] := hiff (by rw [hcall]; rfl)
      obtain ⟨s₁, e₁, hcall₁, hflag, -, hgoals, -, -, hl, hz, -⟩ := hret hnil
      rw [hcall] at hcall₁
      simp only [Option.some.injEq, Prod.mk.injEq] at hcall₁
      obtain ⟨hs, he⟩ := hcall₁
      subst hs
      subst he
      exact ⟨hflag, by rw [hgoals]; exact hhome, hl, hz⟩
  · intro env s₁ n dB TB pre post it hflag h₁ h₂ hTB hselB hlist hid hpre hpost hw hlen
    obtain ⟨hstate, -⟩ := processFeedback_markerName s₁ n hflag h₁ h₂
    rw [hstate] at hselB hlist ⊢
    obtain ⟨-, htarget⟩ := stateAtSelection_goals env _ dB TB hselB
    obtain ⟨z_history, medianZ, s₃, eB, hzs, hcallB, hfB, htB, -, hlast, hgoals, -⟩ :=
      trackingCallback_chosen_frame env { s₁ with targetId := n, personNotChosenFlag := false }
        dB TB pre post it hTB hselB hlist (by rw [htarget]; exact hid) hpre hpost hw hlen
    refine ⟨rfl, rfl, rfl, rfl, z_history, medianZ, s₃, eB, hzs, hcallB, hfB,
      htB.trans hid, ?_⟩
    intro hd
    have hiff := normGt_iff (fixationCandidate env it medianZ) s₁.lastFixationPoint
      s₁.gaze_threshold
    have hn : ¬ normGt (fixationCandidate env it medianZ) s₁.lastFixationPoint
        s₁.gaze_threshold = true := fun h => hd (hiff.mp h)
    exact ⟨hgoals.trans (if_neg hn), hlast.trans (if_neg hn)⟩

/-- Witness of C21: the default window 5, and the window 101. -/
theorem z_history_bounds_witness :
    ((∀ k ∈ initIndices 5 0, 0 ≤ k ∧ k ≤ 99) ∧ (∀ k ∈ updateIndices 5, 0 ≤ k ∧ k ≤ 99) ∧
      atIndex 5 < 5) ∧
    ((∃ k ∈ initIndices 101 0, 99 < k) ∧ (∃ k ∈ updateIndices 101, 99 < k) ∧
      ∀ (h : List ℚ) (z : ℚ), h.length = 100 → zStep 101 h z = Option.none) :=
  ⟨⟨((z_history_bounds 5).1 (by decide) (by decide)).1,
      ((z_history_bounds 5).1 (by decide) (by decide)).2.1,
      ((z_history_bounds 5).1 (by decide) (by decide)).2.2.2.2.2.1⟩,
    ⟨((z_history_bounds 101).2 (by decide)).1, ((z_history_bounds 101).2 (by decide)).2.1,
      ((z_history_bounds 101).2 (by decide)).2.2.2.2⟩⟩

/-- C22 at a failing frame: the frame after a click that deselected person 1, in which
the list holds track 1; the callback does not return. -/
theorem trackingCallback_never_reselects_witness :
    (processFeedback exampleTracker { marker_name := markerName 1 }).1.personNotChosenFlag
      = true ∧
    (smoothedList rejectingEnv (processFeedback exampleTracker { marker_name := markerName 1 }).1
        (oneDetectionFrame 1) exampleT).map (fun p => p.id) = [1] ∧
    (trackingCallback rejectingEnv (processFeedback exampleTracker { marker_name := markerName 1 }).1
        (oneDetectionFrame 1)).isSome = false :=
  ⟨rfl, by decide!,
    Bool.eq_false_iff.mpr fun h =>
      absurd ((trackingCallback_never_reselects rejectingEnv
        (processFeedback exampleTracker { marker_name := markerName 1 }).1 (oneDetectionFrame 1)
        exampleT rfl (stateAtSelection_unselected_of_flag _ _ _ _ rfl)).1.mp h) (by decide!)⟩

/-- Witness of C23: `staleTracker` follows person 1 and stores the point (1, 0, 1).  A
click deselects and sends `HOME`; a click on the marker `person 1` chooses person 1
again; the next frame, whose candidate is (1, 0, 0.95), sends no goal. -/
theorem home_keeps_hysteresis_witness :
    ((processFeedback staleTracker { marker_name := markerName 1 }).2.goals = [GazeGoal.HOME] ∧
      (processFeedback staleTracker { marker_name := markerName 1 }).1.lastFixationPoint
        = { x := 1, y := 0, z := 1 }) ∧
    (trackingCallback rejectingEnv
        (processFeedback (processFeedback staleTracker { marker_name := markerName 1 }).1
          { marker_name := markerName 1 }).1 (oneDetectionFrame 1)).map
        (fun r => (r.1.personNotChosenFlag, r.1.targetId, r.2.goals, r.1.lastFixationPoint))
      = some (false, 1, [], { x := 1, y := 0, z := 1 }) ∧
    ∃ z_history medianZ s₃ eB,
      zStep staleTracker.median_window staleTracker.z_history
          (rawZ rejectingEnv (processFeedback staleTracker { marker_name := markerName 1 }).1
            exampleT (ageTrack exampleTracker.personList examplePerson))
        = some (z_history, medianZ) ∧
      trackingCallback rejectingEnv
          (processFeedback (processFeedback staleTracker { marker_name := markerName 1 }).1
            { marker_name := markerName 1 }).1 (oneDetectionFrame 1) = some (s₃, eB) ∧
      s₃.personNotChosenFlag = false ∧ s₃.targetId = 1 ∧
      (¬ (staleTracker.gaze_threshold : ℝ) <
          Real.sqrt ((((rejectingEnv.medianFilter
                (ageTrack exampleTracker.personList examplePerson)).x
              - staleTracker.lastFixationPoint.x) ^ 2
            + ((rejectingEnv.medianFilter (ageTrack exampleTracker.personList examplePerson)).y
              - staleTracker.lastFixationPoint.y) ^ 2
            + (medianZ - staleTracker.lastFixationPoint.z) ^ 2 : ℚ) : ℝ) →
        eB.goals = [] ∧ s₃.lastFixationPoint = staleTracker.lastFixationPoint) :=
  ⟨⟨(home_keeps_hysteresis.1 staleTracker { marker_name := markerName 1 } rfl).2.1,
      (home_keeps_hysteresis.1 staleTracker { marker_name := markerName 1 } rfl).2.2.1⟩,
    by decide!,
    (home_keeps_hysteresis.2.2 rejectingEnv
      (processFeedback staleTracker { marker_name := markerName 1 }).1 1 (oneDetectionFrame 1)
      exampleT [] [] (ageTrack exampleTracker.personList examplePerson)
      rfl (by decide) (by decide) rfl (by decide!) (by decide!) rfl (by simp) (by simp)
      (by decide) (by decide)).2.2.2.2⟩

end HumanAwareness
